import Mathlib

/-!
A shallow embedding of `yt_dlp/extractor/funimation.py` (the Funimation
extractor family: `FunimationBaseIE`, `FunimationPageIE`, `FunimationIE`,
`FunimationShowIE`, `FunimationMetaIE`) together with proofs about the
embedded operations.

Modelling conventions:

* JSON values (and the Python objects built from them) are the inductive
  type `Json`; Python `None` is `Json.null`.  JSON numbers are modelled as
  integers (no claim involves floating point).
* Python exceptions are the type `PyErr`; fallible code runs in
  `Except PyErr`.  `ExtractorError` carries the HTTP status of its cause
  when the cause is an `HTTPError` (that is the only attribute of the
  cause the source inspects).
* HTTP downloads are modelled as oracle parameters: each download site of
  the source becomes an explicit `Except PyErr Json` argument (or a
  function argument keyed by the request's distinguishing component).
  A failed `fatal=False` download is modelled as the value the source
  continues with (`none` / empty list), matching the framework contract.
* Iterating a Python value with `for` is modelled by `pyIter`, which
  succeeds exactly on lists; the source never deliberately iterates
  strings or dicts at the modelled sites, and iterating `None` or a
  number raises `TypeError` as in Python.
* Logging (`report_warning`, download notes) has no effect on any claim
  and is dropped, except in `FunimationIE._get_episode` where the claims
  distinguish "warn" from "raise": there the warnings emitted are
  returned alongside the result.
-/

/-- A Python/JSON value.  `null` doubles as Python `None`. -/
inductive Json where
  | null
  | bool (b : Bool)
  | int (n : Int)
  | str (s : String)
  | list (xs : List Json)
  | dict (kvs : List (String × Json))
deriving Repr

mutual

def Json.decEq : (a b : Json) → Decidable (a = b)
  | .null, .null => isTrue rfl
  | .bool a, .bool b =>
    if h : a = b then isTrue (by rw [h]) else isFalse (by simp [h])
  | .int a, .int b =>
    if h : a = b then isTrue (by rw [h]) else isFalse (by simp [h])
  | .str a, .str b =>
    if h : a = b then isTrue (by rw [h]) else isFalse (by simp [h])
  | .list xs, .list ys =>
    match Json.decEqList xs ys with
    | isTrue h => isTrue (by rw [h])
    | isFalse h => isFalse (by simp [h])
  | .dict xs, .dict ys =>
    match Json.decEqKVs xs ys with
    | isTrue h => isTrue (by rw [h])
    | isFalse h => isFalse (by simp [h])
  | .null, .bool _ | .null, .int _ | .null, .str _ | .null, .list _ | .null, .dict _ => isFalse (by simp)
  | .bool _, .null | .bool _, .int _ | .bool _, .str _ | .bool _, .list _ | .bool _, .dict _ => isFalse (by simp)
  | .int _, .null | .int _, .bool _ | .int _, .str _ | .int _, .list _ | .int _, .dict _ => isFalse (by simp)
  | .str _, .null | .str _, .bool _ | .str _, .int _ | .str _, .list _ | .str _, .dict _ => isFalse (by simp)
  | .list _, .null | .list _, .bool _ | .list _, .int _ | .list _, .str _ | .list _, .dict _ => isFalse (by simp)
  | .dict _, .null | .dict _, .bool _ | .dict _, .int _ | .dict _, .str _ | .dict _, .list _ => isFalse (by simp)

def Json.decEqList : (a b : List Json) → Decidable (a = b)
  | [], [] => isTrue rfl
  | x :: xs, y :: ys =>
    match Json.decEq x y, Json.decEqList xs ys with
    | isTrue h1, isTrue h2 => isTrue (by rw [h1, h2])
    | isFalse h1, _ => isFalse (by simp [h1])
    | _, isFalse h2 => isFalse (by simp [h2])
  | [], _ :: _ => isFalse (by simp)
  | _ :: _, [] => isFalse (by simp)

def Json.decEqKVs : (a b : List (String × Json)) → Decidable (a = b)
  | [], [] => isTrue rfl
  | (k1, v1) :: xs, (k2, v2) :: ys =>
    match String.decEq k1 k2, Json.decEq v1 v2, Json.decEqKVs xs ys with
    | isTrue h0, isTrue h1, isTrue h2 => isTrue (by rw [h0, h1, h2])
    | isFalse h0, _, _ => isFalse (by simp [h0])
    | _, isFalse h1, _ => isFalse (by simp [h1])
    | _, _, isFalse h2 => isFalse (by simp [h2])
  | [], _ :: _ => isFalse (by simp)
  | _ :: _, [] => isFalse (by simp)

end

instance : DecidableEq Json := Json.decEq

/-- A Python exception.  `extractorError` is the framework's
`ExtractorError`; `causeStatus` is `e.cause.status` when `e.cause` is an
`HTTPError`, else `none` (the only shape the source inspects). -/
inductive PyErr where
  | extractorError (msg : String) (expected : Bool) (causeStatus : Option Nat)
  | typeError
  | attributeError
  | keyError (k : String)
  | unboundLocal (v : String)
deriving DecidableEq, Repr

/-- Python truthiness of a value. -/
def pyTruthy : Json → Bool
  | .null => false
  | .bool b => b
  | .int n => n ≠ 0
  | .str s => s ≠ ""
  | .list xs => xs ≠ []
  | .dict kvs => kvs ≠ []

/-- Python `str()` / `'%s' %` conversion.  The `repr` of containers is
never observed by any claim and is rendered as a placeholder. -/
def pyStr : Json → String
  | .null => "None"
  | .bool true => "True"
  | .bool false => "False"
  | .int n => toString n
  | .str s => s
  | .list _ => "<list repr unmodelled>"
  | .dict _ => "<dict repr unmodelled>"

/-- Association-list lookup of a dict key (first binding wins, as Python
dicts hold each key once). -/
def Json.lookup (j : Json) (k : String) : Option Json :=
  match j with
  | .dict kvs => (kvs.find? (fun kv => kv.1 = k)).map (·.2)
  | _ => none

/-- Python `obj.get(key)`: `None` when the key is absent, `AttributeError`
when `obj` is not a dict. -/
def pyGet (j : Json) (k : String) : Except PyErr Json :=
  match j with
  | .dict _ => .ok ((j.lookup k).getD .null)
  | _ => .error .attributeError

/-- Python `obj.get(key, default)`. -/
def pyGetD (j : Json) (k : String) (d : Json) : Except PyErr Json :=
  match j with
  | .dict _ => .ok ((j.lookup k).getD d)
  | _ => .error .attributeError

/-- Python `obj[key]`: `KeyError` when absent, `AttributeError`-ish
(`TypeError` in CPython, the distinction is irrelevant here) when `obj` is
not a dict. -/
def pyItem (j : Json) (k : String) : Except PyErr Json :=
  match j with
  | .dict _ =>
    match j.lookup k with
    | some v => .ok v
    | none => .error (.keyError k)
  | _ => .error .typeError

/-- Python `for x in obj`: succeeds exactly on lists (see module header). -/
def pyIter (j : Json) : Except PyErr (List Json) :=
  match j with
  | .list xs => .ok xs
  | _ => .error .typeError

/-- Python `dict.items()` (`AttributeError` on non-dicts). -/
def pyDictItems (j : Json) : Except PyErr (List (String × Json)) :=
  match j with
  | .dict kvs => .ok kvs
  | _ => .error .attributeError

/-- Python `dict.values()` (`AttributeError` on non-dicts). -/
def pyDictValues (j : Json) : Except PyErr (List Json) :=
  match j with
  | .dict kvs => .ok (kvs.map (·.2))
  | _ => .error .attributeError

/-- Python `a or b` (on already-evaluated operands). -/
def pyOr (a b : Json) : Json :=
  if pyTruthy a then a else b

/-- `dict.update` / key assignment for one key: replace the binding of
an existing key in place, else append the new binding at the end (a
Python dict holds each key once). -/
def dictSet : List (String × Json) → String → Json → List (String × Json)
  | [], k, v => [(k, v)]
  | a :: rest, k, v => if a.1 = k then (k, v) :: rest else a :: dictSet rest k v

/-- `f.update({...})` over a list of bindings applied to a format dict.
All update sites in the source apply it to dicts; a non-dict is returned
unchanged (never exercised). -/
def jsonUpdate (j : Json) (upd : List (String × Json)) : Json :=
  match j with
  | .dict kvs => .dict (upd.foldl (fun acc kv => dictSet acc kv.1 kv.2) kvs)
  | _ => j

/-- Python `str.lower()` (per character, as `str.lower` acts on the
ASCII identifiers the source compares). -/
def pyLowerStr (s : String) : String :=
  (s.data.map Char.toLower).asString

/-- Python `str.upper()` (per character). -/
def pyUpperStr (s : String) : String :=
  (s.data.map Char.toUpper).asString

/-- Python `str.lower()` on a value: `AttributeError` unless a string. -/
def pyLower : Json → Except PyErr String
  | .str s => .ok (pyLowerStr s)
  | _ => .error .attributeError

/-- Python `str.upper()` on a value: `AttributeError` unless a string. -/
def pyUpper : Json → Except PyErr String
  | .str s => .ok (pyUpperStr s)
  | _ => .error .attributeError

/-- Python `str.title()`: each alphabetic run starts uppercase, the rest
of the run is lowercased. -/
def pyTitle (s : String) : String :=
  (s.data.foldl
    (fun st c =>
      let (acc, prevAlpha) := st
      if c.isAlpha then
        (acc ++ [if prevAlpha then c.toLower else c.toUpper], true)
      else (acc ++ [c], false))
    (([] : List Char), false)).1.asString

/-- Python `str.capitalize()`: first character uppercased, rest lowercased. -/
def pyCapitalize (s : String) : String :=
  match s.data with
  | [] => ""
  | c :: cs => (c.toUpper :: cs.map Char.toLower).asString

/-- Python `v.capitalize()` on a value: `AttributeError` unless a string. -/
def pyCapitalizeJson : Json → Except PyErr String
  | .str s => .ok (pyCapitalize s)
  | _ => .error .attributeError

/-- Python `max(d, v)` where `d` is already an int: `TypeError` unless
`v` is a number (JSON numbers are modelled as integers). -/
def pyMaxInt (d : Int) : Json → Except PyErr Int
  | .int n => .ok (max d n)
  | _ => .error .typeError

/-- `utils.join_nonempty`: join the `str()` of the truthy values. -/
def join_nonempty (delim : String) (vals : List Json) : String :=
  String.intercalate delim ((vals.filter pyTruthy).map pyStr)

/-- `utils.qualities`: index of the value in the preference list, `-1`
when absent. -/
def qualities (ids : List String) (q : String) : Int :=
  match ids.findIdx? (fun x => x = q) with
  | some i => (i : Int)
  | none => -1

/-- Python `int(s)` for a plain digit string (what the player URL regex
and the JSON ids provide). -/
def strToNat? (s : String) : Option Nat :=
  if s.data ≠ [] ∧ s.data.all Char.isDigit then
    some (s.data.foldl (fun n c => n * 10 + (c.toNat - 48)) 0)
  else none

/-- Python `int(s)` allowing a leading minus sign. -/
def strToInt? (s : String) : Option Int :=
  match s.data with
  | '-' :: rest => (strToNat? rest.asString).map (fun n => -(n : Int))
  | _ => (strToNat? s).map (fun n => (n : Int))

/-- `utils.int_or_none` (scale/invscale are never passed here). -/
def int_or_none : Json → Json
  | .int n => .int n
  | .bool b => .int (if b then 1 else 0)
  | .str s =>
    match strToInt? s with
    | some n => .int n
    | none => .null
  | _ => .null

/-- `utils.str_or_none`. -/
def str_or_none : Json → Json
  | .null => .null
  | v => .str (pyStr v)

/-- `utils.determine_ext` with its default `'unknown_video'`: the part of
the pre-query URL after the last dot when purely alphanumeric (the
`KNOWN_EXTENSIONS` trailing-slash branch is never hit by the formats the
source feeds it and is folded into the default). -/
def determine_ext (url : Json) : String :=
  match url with
  | .str s =>
    if s.data.contains '.' then
      let beforeQuery := s.data.takeWhile (fun c => c ≠ '?')
      let guess := ((beforeQuery.reverse.takeWhile (fun c => c ≠ '.')).reverse).asString
      if guess ≠ "" ∧ guess.data.all Char.isAlphanum then guess
      else "unknown_video"
    else "unknown_video"
  | _ => "unknown_video"

/-- The values a `...` (Ellipsis) step of `utils.traverse_obj` branches
into: list elements, dict values, nothing otherwise. -/
def branchValues : Json → List Json
  | .list xs => xs
  | .dict kvs => kvs.map (·.2)
  | _ => []

/-- `traverse_obj(resp, ('videoList', ..., 'id'), get_all=False)` used by
`FunimationPageIE._real_extract`: the first `'id'` found under
`'videoList'`. -/
def traverse_videoList_first_id (j : Json) : Option Json :=
  match j.lookup "videoList" with
  | some v => (branchValues v).findSome? (fun x => x.lookup "id")
  | none => none

/-- `traverse_obj` along a static key path: the value at the path, or
`None` when any step is absent. -/
def traversePath : Json → List String → Json
  | j, [] => j
  | j, k :: ks =>
    match j.lookup k with
    | some v => traversePath v ks
    | none => .null

/-- The key filter `lambda k, _: re.match(r'(?i)mostRecent[AS]vod', k)`
of `FunimationShowIE._real_extract`: a case-insensitive prefix match. -/
def matchesMostRecentVod (k : String) : Bool :=
  pyLowerStr (k.data.take 14).asString = "mostrecentavod"
  || pyLowerStr (k.data.take 14).asString = "mostrecentsvod"

/-- `traverse_obj(items_info, ('items', ..., lambda k, _: re.match(r'(?i)mostRecent[AS]vod', k), 'item'))`:
all `'item'` values under keys matching the filter, across the branches
of `'items'`.  With a branching path and no default, `traverse_obj`
returns a (possibly empty) list. -/
def traverse_vod_items (itemsInfo : Json) : List Json :=
  match itemsInfo.lookup "items" with
  | some v =>
    (branchValues v).flatMap (fun it =>
      match it with
      | .dict kvs =>
        (kvs.filter (fun kv => matchesMostRecentVod kv.1)).filterMap
          (fun kv => kv.2.lookup "item")
      | _ => [])
  | none => []

/-- `utils.orderedSet`: drop duplicates, keeping first occurrences. -/
def orderedSet {α : Type} [DecidableEq α] (xs : List α) : List α :=
  xs.foldl (fun acc x => if acc.contains x then acc else acc ++ [x]) []

/-- Modelled from the spec: the host framework's
`InfoExtractor._remove_duplicate_formats` is not part of this repository
(only its call sites are); the spec describes the step as
"deduplication" of the collected formats, so it is modelled as keeping
the first occurrence of each format value. -/
def _remove_duplicate_formats (formats : List Json) : List Json :=
  orderedSet formats

/-- Modelled from the spec: the host framework's
`InfoExtractor.raise_no_formats` is not part of this repository; per the
spec an extractor signals the absence of playable media by raising an
ExtractorError, here marked `expected` as at both call sites. -/
def raise_no_formats (msg : String) : Except PyErr Unit :=
  .error (.extractorError msg true none)

/-- The `subtitles` dict of the extractors: language key to list of
subtitle dicts, in insertion order. -/
abbrev Subs := List (String × List Json)

/-- `subtitles.get(lang, [])`. -/
def subsGet (subs : Subs) (lang : String) : List Json :=
  ((subs.find? (fun p => p.1 = lang)).map (·.2)).getD []

/-- `subtitles.setdefault(lang, []).append(sub)`. -/
def subsSetdefaultAppend (subs : Subs) (lang : String) (sub : Json) : Subs :=
  if subs.any (fun p => p.1 = lang) then
    subs.map (fun p => if p.1 = lang then (p.1, p.2 ++ [sub]) else p)
  else subs ++ [(lang, [sub])]

/-- The guarded append shared by both `_get_subtitles` bodies:
`if current_sub not in subtitles.get(lang, []): subtitles.setdefault(lang, []).append(current_sub)`. -/
def subsAddUnique (subs : Subs) (lang : String) (sub : Json) : Subs :=
  if sub ∈ subsGet subs lang then subs else subsSetdefaultAppend subs lang sub

/-- The invariant of the extractors' `subtitles` dict: the keys are
pairwise distinct (it models a Python dict) and every language's list
holds pairwise-distinct entries.  The empty dict the extractors start
from satisfies it. -/
def SubsInv (s : Subs) : Prop :=
  (s.map (·.1)).Nodup ∧ ∀ p ∈ s, (p.2 : List Json).Nodup

/-- `traverse_obj(geo_response, 'region')` of
`FunimationBaseIE._get_region`: the `'region'` field of the geo-service
response, `None` when the (non-fatal) download failed or the field is
absent. -/
def traverse_region (geoResp : Option Json) : Json :=
  match geoResp with
  | some j => (j.lookup "region").getD .null
  | none => .null

/-- `FunimationBaseIE._get_region`.  `regionCookie` is the value of the
`'region'` cookie when that cookie is present, `geoBypass` the
`geo_bypass_country` parameter, and `geoResp` the parsed geo-service
response (`none` when the non-fatal download failed, in which case the
framework hands back `None`). -/
def FunimationBaseIE._get_region (regionCookie : Option String)
    (geoBypass : Json) (geoResp : Option Json) : Json :=
  let region : Json :=
    match regionCookie with
    | some v => .str v
    | none => geoBypass
  pyOr region (pyOr (traverse_region geoResp) (.str "US"))

/-- `FunimationBaseIE._perform_login`, with the login POST modelled as
the oracle `loginResp` and the parsed body of a 401 response as
`errBody`.  Returns the new value of `FunimationBaseIE._TOKEN` together
with the list of HTTP requests performed. -/
def FunimationBaseIE._perform_login (token : Json)
    (loginResp : Except PyErr Json) (errBody : Json) :
    Except PyErr (Json × List String) :=
  if pyTruthy token then .ok (token, [])
  else
    match loginResp with
    | .ok data =>
      match pyItem data "token" with
      | .ok t => .ok (t, ["https://prod-api-funimationnow.dadcdigital.com/api/auth/login/"])
      | .error e => .error e
    | .error (.extractorError _ _ (some 401)) =>
      match pyItem errBody "error" with
      | .ok errv => .error (.extractorError (pyStr errv) true none)
      | .error e => .error e
    | .error e => .error e

/-- `FunimationIE.ie_key()` — the framework derives it from the class
name by dropping the `IE` suffix. -/
def FunimationIE.ie_key : String := "Funimation"

/-- `FunimationPageIE.ie_key()`. -/
def FunimationPageIE.ie_key : String := "FunimationPage"

/-- `FunimationShowIE.ie_key()`. -/
def FunimationShowIE.ie_key : String := "FunimationShow"

/-- `FunimationMetaIE.ie_key()`. -/
def FunimationMetaIE.ie_key : String := "FunimationMeta"

/-- A `url_result` dict: the redirect URL, the extractor key it is
dispatched to, and the optional `video_id` / `video_title` arguments. -/
structure UrlRes where
  url : String
  ieKey : String
  videoId : Json
  title : Json
deriving DecidableEq, Repr

/-- The info dict returned by `FunimationIE._real_extract` and
`FunimationMetaIE._real_extract` (field per source dict key;
`FunimationMetaIE` leaves `oldArchiveIds` empty as its dict has no
`_old_archive_ids` key). -/
structure InfoDict where
  id : String
  oldArchiveIds : List String
  displayId : Json
  duration : Json
  title : Json
  description : Json
  episode : Json
  episodeNumber : Json
  episodeId : String
  season : Json
  seasonNumber : Json
  seasonId : Json
  series : Json
  formats : List Json
  thumbnails : List Json
  subtitles : Subs
deriving Repr

/-- What a `_real_extract` returns: a `url_result` redirect, a playlist
of redirects, or an info dict. -/
inductive ExtractResult where
  | urlResult (r : UrlRes)
  | playlist (id : Json) (title : Json) (entries : List UrlRes)
  | info (d : InfoDict)
deriving Repr

/-- `FunimationPageIE._real_extract` (lines 91-106).  `lookupResp` is the
episode-lookup download
`https://title-api.prd.funimationsvc.com/v1/shows/<show>/episodes/<episode>`.
On success it redirects to the `FunimationIE` player URL built from the
first `'id'` under `'videoList'`.  On an `ExtractorError` whose cause is
an HTTP 404 it redirects to the cloudfront metadata endpoint.  Any other
`ExtractorError` is caught by the bare `except ExtractorError` clause and
*not* re-raised, after which the `return self.url_result(f'...{video_id}...')`
line reads the never-assigned local `video_id` and raises
`UnboundLocalError`. -/
def FunimationPageIE._real_extract (_locale : Option String) (_showSlug episode : String)
    (lookupResp : Except PyErr Json) : Except PyErr ExtractResult :=
  match lookupResp with
  | .ok data =>
    let videoId := (traverse_videoList_first_id data).getD .null
    .ok (.urlResult ⟨"https://www.funimation.com/player/" ++ pyStr videoId ++ "?" ++ episode,
      FunimationIE.ie_key, .null, .null⟩)
  | .error (.extractorError _ _ (some 404)) =>
    .ok (.urlResult ⟨"https://d33et77evd9bgg.cloudfront.net/data/v1/episodes/" ++ episode ++ ".json",
      FunimationMetaIE.ie_key, .null, .null⟩)
  | .error (.extractorError _ _ _) => .error (.unboundLocal "video_id")
  | .error e => .error e

/-- The key function `lambda x: x.get('episodeOrder', -1)` of the
`sorted` call in `FunimationShowIE._real_extract`, extracted per item.
The orders are integers; a non-integer value is rejected as `TypeError`
(Python would raise on the heterogeneous comparison). -/
def episodeOrderKey (x : Json) : Except PyErr Int := do
  let k ← pyGetD x "episodeOrder" (.int (-1))
  match k with
  | .int n => pure n
  | _ => .error .typeError

/-- Stable insertion of a keyed item: it lands after every item with a
key less than or equal to its own, as Python's stable `sorted` places
it. -/
def insertByKey (p : Int × Json) : List (Int × Json) → List (Int × Json)
  | [] => [p]
  | q :: rest => if q.1 ≤ p.1 then q :: insertByKey p rest else p :: q :: rest

/-- `sorted(vod_items, key=lambda x: x.get('episodeOrder', -1))`: a
stable sort (insertion sort) on the extracted keys. -/
def sortVodItems (items : List Json) : Except PyErr (List Json) := do
  let keyed ← items.mapM (fun x => do
    let n ← episodeOrderKey x
    pure (n, x))
  pure ((keyed.foldl (fun acc p => insertByKey p acc) []).map (·.2))

/-- `FunimationShowIE._real_extract` (lines 334-355).  `showInfoResp` and
`itemsInfoResp` are the two downloads (show metadata, then the episode
list).  The playlist entries are `url_result` redirects of
`'%s/%s' % (base_url, vod_item.get('episodeSlug'))` to
`FunimationPageIE`, deduplicated by `orderedSet`. -/
def FunimationShowIE._real_extract (baseUrl : String) (_locale : Option String)
    (_displayId : String) (showInfoResp itemsInfoResp : Except PyErr Json) :
    Except PyErr ExtractResult := do
  let showInfo ← showInfoResp
  let itemsInfo ← itemsInfoResp
  let vodItems := traverse_vod_items itemsInfo
  let pid ← pyItem showInfo "id"
  let ptitle ← pyItem showInfo "name"
  let sortedItems ← sortVodItems vodItems
  let entries ← sortedItems.mapM (fun vodItem => do
    let slug ← pyGet vodItem "episodeSlug"
    let vid ← pyGet vodItem "episodeId"
    let name ← pyGet vodItem "episodeName"
    pure (⟨baseUrl ++ "/" ++ pyStr slug, FunimationPageIE.ie_key, vid, name⟩ : UrlRes))
  pure (.playlist pid ptitle (orderedSet entries))

/-- `FunimationIE._get_experiences`: flatten
`episode['languages'][lang][*][version]` into `(lang, version.title(), f)`
triples, in iteration order. -/
def FunimationIE._get_experiences (episode : Json) : Except PyErr (List (String × String × Json)) := do
  let langs ← pyGetD episode "languages" (.dict [])
  let items ← pyDictItems langs
  items.foldlM (fun acc p => do
    let vds ← pyDictValues p.2
    vds.foldlM (fun acc vd => do
      let fs ← pyDictItems vd
      pure (acc ++ fs.map (fun q => (p.1, pyTitle q.1, q.2)))) acc) []

/-- The inner loop `for _, _, f in self._get_experiences(episode): if
f.get('experienceId') == experience_id: ...` — whether some experience's
`'experienceId'` equals the given id, short-circuiting at the first
match. -/
def findExperienceId (exps : List (String × String × Json)) (experienceId : Json) :
    Except PyErr Bool :=
  match exps with
  | [] => .ok false
  | t :: rest => do
    let v ← pyGet t.2.2 "experienceId"
    if v = experienceId then pure true else findExperienceId rest experienceId

/-- The `for episode in season.get('episodes', [])` body of
`FunimationIE._get_episode`: the first episode of the season matching
`episodeId` (by `str(episode.get('episodePk'))`) when an episode id was
given, else the first whose experiences contain `experienceId`. -/
def findInEpisodes (season : Json) (eps : List Json) (experienceId : Json)
    (episodeId : Option String) : Except PyErr (Option (Json × Json)) :=
  match eps with
  | [] => .ok none
  | ep :: rest => do
    match episodeId with
    | some eid => do
      let pk ← pyGet ep "episodePk"
      if pyStr pk = eid then pure (some (ep, season))
      else findInEpisodes season rest experienceId episodeId
    | none => do
      let exps ← FunimationIE._get_experiences ep
      if ← findExperienceId exps experienceId then pure (some (ep, season))
      else findInEpisodes season rest experienceId episodeId

/-- The season loop of `FunimationIE._get_episode`. -/
def findEpisode (seasons : List Json) (experienceId : Json) (episodeId : Option String) :
    Except PyErr (Option (Json × Json)) :=
  match seasons with
  | [] => .ok none
  | season :: rest => do
    let episodesJ ← pyGetD season "episodes" (.list [])
    let eps ← pyIter episodesJ
    match ← findInEpisodes season eps experienceId episodeId with
    | some r => pure (some r)
    | none => findEpisode rest experienceId episodeId

/-- The `show = self._parse_json(self._search_regex(...), ...) or []`
step of `FunimationIE._get_episode` (lines 165-168): `showJson` is the
located-and-parsed `show = {...};` data.  When it is missing, `fatal=True`
makes `_search_regex` raise, while `fatal=False` hands back `None`,
which `or []` turns into the empty *list*. -/
def showDataOrEmpty (showJson : Option Json) (fatal : Bool) : Except PyErr Json :=
  match showJson with
  | some s => .ok s
  | none =>
    if fatal then .error (.extractorError "Unable to extract show data" false none)
    else .ok (.list [])

/-- `FunimationIE._get_episode` (lines 163-182).  `showJson` is the
result of locating and parsing the `show = {...};` data of the player
webpage: `some s` when found and parsed, `none` when not — with
`fatal=True` the framework's `_search_regex` then raises, and with
`fatal=False` it hands back `None`, which `or []` turns into the empty
*list* (so that a later `.get` on it would raise `AttributeError`).
`experienceId` is the `experience_id` argument as a Python value
(`Json.int` at the one call site passing it, `Json.null` for the default
`None`).  Returns `(episode, season, show, warnings)`. -/
def FunimationIE._get_episode (showJson : Option Json) (experienceId : Json)
    (episodeId : Option String) (fatal : Bool) :
    Except PyErr (Json × Json × Json × List String) := do
  let showJ ← showDataOrEmpty showJson fatal
  let seasonsJ ← pyGetD showJ "seasons" (.list [])
  let seasons ← pyIter seasonsJ
  match ← findEpisode seasons experienceId episodeId with
  | some (ep, season) => pure (ep, season, showJ, [])
  | none =>
    if fatal then .error (.extractorError "Unable to find episode information" false none)
    else pure (.dict [], .dict [], .dict [], ["Unable to find episode information"])

/-- The `for text_track in source.get('textTracks')` body of
`FunimationIE._get_subtitles` (lines 287-299): skip tracks without a
truthy `'src'`, else build the subtitle entry and language key and append
it unless already present under that key. -/
def FunimationIE.subTTStep (version : String) (subs : Subs) (tt : Json) : Except PyErr Subs := do
  let src ← pyGet tt "src"
  if ¬ pyTruthy src then pure subs
  else do
    let typ ← pyGet tt "type"
    let subTypeRaw ← pyUpper typ
    let subType : Json := if subTypeRaw ≠ "FULL" then .str subTypeRaw else .null
    let srcVal ← pyItem tt "src"
    let label ← pyGet tt "label"
    let currentSub := Json.dict [("url", srcVal),
      ("name", .str (join_nonempty " " [.str version, label, subType]))]
    let langRaw ← pyGetD tt "language" (.str "und")
    let lang := join_nonempty "_" [langRaw,
      (if version ≠ "Simulcast" then .str version else .null), subType]
    pure (subsAddUnique subs lang currentSub)

/-- The `for source in f.get('sources')` body of
`FunimationIE._get_subtitles` (lines 285-299). -/
def FunimationIE.subSourceStep (version : String) (subs : Subs) (source : Json) :
    Except PyErr Subs := do
  let tts ← pyGet source "textTracks"
  let ttList ← pyIter tts
  ttList.foldlM (FunimationIE.subTTStep version) subs

/-- The `for _, version, f in self._get_experiences(episode)` body of
`FunimationIE._get_subtitles` (lines 284-299). -/
def FunimationIE.subExpStep (subs : Subs) (t : String × String × Json) :
    Except PyErr Subs := do
  let sources ← pyGet t.2.2 "sources"
  let srcList ← pyIter sources
  srcList.foldlM (FunimationIE.subSourceStep t.2.1) subs

/-- The experience/source/text-track loop of `FunimationIE._get_subtitles`
(lines 284-300), over an episode *object* (the `isinstance(episode, str)`
redirection is `FunimationIE._get_subtitles` below). -/
def FunimationIE.subtitlesFromEpisode (subs : Subs) (episode : Json) : Except PyErr Subs := do
  let exps ← FunimationIE._get_experiences episode
  exps.foldlM FunimationIE.subExpStep subs

/-- The `isinstance(episode, str)` redirection of
`FunimationIE._get_subtitles` (lines 278-282).  When `episode` is a
string (an episode id), the player webpage for `experienceId` is
downloaded (`fatal=False`) and the episode object looked up in its
`show = {...}` data; `pageShow` is that page's parsed show data by
experience id (`none` when the download, search or parse failed). -/
def FunimationIE.resolveEpisodeArg (pageShow : String → Option Json)
    (experienceId : String) : Json → Except PyErr Json
  | .str epId => do
    let r ← FunimationIE._get_episode (pageShow experienceId) .null (some epId) false
    pure r.1
  | e => pure e

/-- `FunimationIE._get_subtitles` (lines 277-300): resolve a string
episode argument, then run the experience/source/text-track loop. -/
def FunimationIE._get_subtitles (pageShow : String → Option Json) (subs : Subs)
    (experienceId : String) (episode : Json) : Except PyErr Subs := do
  let ep ← FunimationIE.resolveEpisodeArg pageShow experienceId episode
  FunimationIE.subtitlesFromEpisode subs ep

/-- The language/version part of the `continue` condition of the
experience loop of `FunimationIE._real_extract` (lines 203-204):
`requested_languages and lang.lower() not in requested_languages or
requested_versions and version.lower() not in requested_versions`. -/
def langVersionSkip (reqLangs reqVers : List String) (lang version : String) : Bool :=
  (!reqLangs.isEmpty && !reqLangs.contains (pyLowerStr lang))
  || (!reqVers.isEmpty && !reqVers.contains (pyLowerStr version))

/-- The full `continue` condition of the experience loop (lines 202-204),
including the `seperate-video-versions` compat-opt clause. -/
def experienceSkip (onlyInitial : Bool) (initialId : String) (reqLangs reqVers : List String)
    (experienceId lang version : String) : Bool :=
  (onlyInitial && experienceId ≠ initialId)
  || langVersionSkip reqLangs reqVers lang version

/-- `utils.make_archive_id(self, initial_experience_id)`: the lowercased
ie key joined to the video id. -/
def make_archive_id (ieKey : String) (videoId : String) : String :=
  pyLowerStr ieKey ++ " " ++ videoId

/-- One iteration of the `for source in sources` loop of
`FunimationIE._real_extract` (lines 231-251).  `st` is
`(current_formats, collected)` where `collected` is the part of `formats`
contributed so far by this experience.  Note the source's indentation:
the `for f in current_formats: f.update(...)` pass and
`formats.extend(current_formats)` both sit *inside* the source loop, so
`formats` receives the whole (aliased, updated) `current_formats` once
per source; re-applying the constant `upd` bindings is value-idempotent,
which lets the aliasing be modelled by snapshots. -/
def FunimationIE.sourceStep (m3u8 : Json → List (List (String × Json)))
    (upd : List (String × Json)) (experienceId : String)
    (st : List Json × List Json) (source : Json) :
    Except PyErr (List Json × List Json) := do
  let srcUrl ← pyGet source "src"
  let vt ← pyGet source "videoType"
  let sourceType := pyOr vt (.str (determine_ext srcUrl))
  let newFormats :=
    if sourceType = .str "m3u8" then (m3u8 srcUrl).map Json.dict
    else [Json.dict [("format_id", .str (experienceId ++ "-" ++ pyStr sourceType)),
                     ("url", srcUrl)]]
  let current := (st.1 ++ newFormats).map (fun f => jsonUpdate f upd)
  pure (current, st.2 ++ current)

/-- The inputs of `FunimationIE._real_extract`: the URL match groups, the
parsed player-page show data, the configuration arguments, the
compat-opts and subtitle-writing parameters, and the download oracles
(`pageShow` for the player webpages fetched by `_get_subtitles`,
`expPage` for the `showexperience` JSON per experience id, `m3u8` for
the formats `_extract_m3u8_formats` yields per manifest URL —
`fatal=False`, so failures are empty lists).  `writeSubtitles` is the
framework's `extract_subtitles` gate: `_get_subtitles` only runs when
the user asked for subtitles. -/
structure FunIEInput where
  initialId : String
  episodeSlug : Option String
  showData : Option Json
  reqLangs : List String
  reqVers : List String
  compatSeparate : Bool
  writeSubtitles : Bool
  pageShow : String → Option Json
  expPage : String → Except PyErr Json
  m3u8 : Json → List (List (String × Json))

/-- The accumulating state of the experience loop:
`formats, subtitles, thumbnails, duration = [], {}, [], 0`. -/
structure CollectState where
  formats : List Json
  subtitles : Subs
  thumbnails : List Json
  duration : Int
deriving Repr

/-- One iteration of the `for lang, version, fmt in
self._get_experiences(episode)` loop of `FunimationIE._real_extract`
(lines 200-251). -/
def FunimationIE.expStep (inp : FunIEInput) (episode : Json) (episodeId : String)
    (langPref srcPref : String → Int) (st : CollectState)
    (t : String × String × Json) : Except PyErr CollectState := do
  let eidJ ← pyItem t.2.2 "experienceId"
  let experienceId := pyStr eidJ
  if experienceSkip inp.compatSeparate inp.initialId inp.reqLangs inp.reqVers
      experienceId t.1 t.2.1 then
    pure st
  else do
    let poster ← pyGet t.2.2 "poster"
    let thumbnails := st.thumbnails ++ [Json.dict [("url", poster)]]
    let durJ ← pyGetD t.2.2 "duration" (.int 0)
    let dur ← pyMaxInt st.duration durJ
    let subs ← if inp.writeSubtitles then
        FunimationIE._get_subtitles inp.pageShow st.subtitles experienceId
          (if experienceId = inp.initialId then episode else .str episodeId)
      else pure st.subtitles
    let page ← inp.expPage experienceId
    let items ← pyGet page "items"
    let sources ← if pyTruthy items then pyIter items else pure []
    let upd := [("language", Json.str t.1), ("format_note", Json.str t.2.1),
                ("source_preference", Json.int (srcPref (pyLowerStr t.2.1))),
                ("language_preference", Json.int (langPref (pyLowerStr t.1)))]
    let r ← sources.foldlM (FunimationIE.sourceStep inp.m3u8 upd experienceId) ([], [])
    pure ⟨st.formats ++ r.2, subs, thumbnails, dur⟩

/-- The whole format/subtitle/thumbnail collection of
`FunimationIE._real_extract` (lines 194-251). -/
def FunimationIE.collectFormats (inp : FunIEInput) (episode : Json) (episodeId : String) :
    Except PyErr CollectState := do
  let langPref := qualities ((if inp.reqLangs.isEmpty then [""] else inp.reqLangs).reverse)
  let srcPref := qualities ((if inp.reqVers.isEmpty then ["uncut", "simulcast"] else inp.reqVers).reverse)
  let exps ← FunimationIE._get_experiences episode
  exps.foldlM (FunimationIE.expStep inp episode episodeId langPref srcPref) ⟨[], [], [], 0⟩

/-- The no-formats check shared by both `_real_extract`s (lines 252-254
and 477-479): `if not formats and (requested_languages or
requested_versions): self.raise_no_formats(..., expected=True, ...)`. -/
def checkNoFormats (formats : List Json) (reqLangs reqVers : List String) :
    Except PyErr Unit :=
  if formats.isEmpty && (!reqLangs.isEmpty || !reqVers.isEmpty) then
    raise_no_formats "There are no video formats matching the requested languages/versions"
  else .ok ()

/-- `FunimationIE._real_extract` (lines 184-275).  The regex guarantees
`initialId` is a digit string; `fatal` of the episode lookup is
`episode_slug == None`.  When the episode is not found non-fatally, the
extractor redirects to the cloudfront metadata endpoint, else it builds
the info dict, raising the (spec-modelled) no-formats error when the
user's language/version request matched nothing. -/
def FunimationIE._real_extract (inp : FunIEInput) : Except PyErr ExtractResult := do
  let expIdInt : Int := (((strToNat? inp.initialId)).getD 0 : Nat)
  let fatal := inp.episodeSlug.isNone
  let r ← FunimationIE._get_episode inp.showData (.int expIdInt) none fatal
  if ¬ pyTruthy r.1 then
    pure (.urlResult ⟨"https://d33et77evd9bgg.cloudfront.net/data/v1/episodes/"
      ++ (inp.episodeSlug.getD "None") ++ ".json", FunimationMetaIE.ie_key, .null, .null⟩)
  else do
    let pk ← pyItem r.1 "episodePk"
    let episodeId := pyStr pk
    let slugJ ← pyGet r.1 "slug"
    let displayId := pyOr slugJ (.str episodeId)
    let st ← FunimationIE.collectFormats inp r.1 episodeId
    let _ ← checkNoFormats st.formats inp.reqLangs inp.reqVers
    let formats := _remove_duplicate_formats st.formats
    let title ← pyItem r.1 "episodeTitle"
    let summary ← pyGet r.1 "episodeSummary"
    let epTitle ← pyGet r.1 "episodeTitle"
    let epNum ← pyGet r.1 "episodeId"
    let seasonTitle ← pyGet r.2.1 "seasonTitle"
    let seasonNum ← pyGet r.2.1 "seasonId"
    let seasonPk ← pyGet r.2.1 "seasonPk"
    let series ← pyGet r.2.2.1 "showTitle"
    pure (.info {
      id := episodeId
      oldArchiveIds := [make_archive_id FunimationIE.ie_key inp.initialId]
      displayId := displayId
      duration := .int st.duration
      title := title
      description := summary
      episode := epTitle
      episodeNumber := int_or_none epNum
      episodeId := episodeId
      season := seasonTitle
      seasonNumber := int_or_none seasonNum
      seasonId := str_or_none seasonPk
      series := series
      formats := formats
      thumbnails := st.thumbnails
      subtitles := st.subtitles })

/-- The `for track in playback_info.get('subtitles')` body of
`FunimationMetaIE._get_subtitles` (lines 367-377), with the same guarded
append as `FunimationIE`. -/
def FunimationMetaIE.trackStep (playbackInfo : Json) (subs : Subs) (track : Json) :
    Except PyErr Subs := do
  let version ← pyGet playbackInfo "version"
  let fp ← pyGet track "filePath"
  let lc ← pyGet track "languageCode"
  let ct ← pyGet track "contentType"
  let currentSub := Json.dict [("url", fp),
    ("name", .str (join_nonempty "-" [version, lc, ct]))]
  let lcD ← pyGetD track "languageCode" (.str "und")
  let lang := join_nonempty "_" [lcD,
    (if version ≠ .str "Simulcast" then version else .null), ct]
  pure (subsAddUnique subs lang currentSub)

/-- `FunimationMetaIE._get_subtitles` (lines 365-378): on a truthy
playback-info, fold its `'subtitles'` tracks into the subtitles dict. -/
def FunimationMetaIE._get_subtitles (subs : Subs) (playbackInfo : Json) : Except PyErr Subs := do
  if ¬ pyTruthy playbackInfo then pure subs
  else do
    let tracksJ ← pyGet playbackInfo "subtitles"
    let tracks ← pyIter tracksJ
    tracks.foldlM (FunimationMetaIE.trackStep playbackInfo) subs

/-- `FunimationMetaIE.add_format` (lines 380-416): append the formats of
one playback-info object to `cur` (`current_formats` is mutated in place
in the source).  `playback_info.get('version').capitalize()` requires a
string `'version'`, and `lang.lower()` a string `'audioLanguage'`
(evaluated per appended format, so an empty m3u8 result skips it). -/
def FunimationMetaIE.add_format (m3u8 : Json → List (List (String × Json)))
    (reqLangs reqVers : List String) (_displayId : String)
    (cur : List Json) (playbackInfo : Json) : Except PyErr (List Json) := do
  let langPref := qualities ((if reqLangs.isEmpty then [""] else reqLangs).reverse)
  let srcPref := qualities ((if reqVers.isEmpty then ["uncut", "simulcast"] else reqVers).reverse)
  let experienceId ← pyGet playbackInfo "venueVideoId"
  let langJ ← pyGet playbackInfo "audioLanguage"
  let versionRaw ← pyGet playbackInfo "version"
  let version ← pyCapitalizeJson versionRaw
  let srcUrl ← pyGet playbackInfo "manifestPath"
  let srcType ← pyGet playbackInfo "fileExt"
  if srcType = .str "m3u8" then do
    let added ← ((m3u8 srcUrl).map Json.dict).mapM (fun f => do
      let langLower ← pyLower langJ
      pure (jsonUpdate f [("language", langJ), ("format_note", .str version),
        ("source_preference", .int (srcPref (pyLowerStr version))),
        ("language_preference", .int (langPref langLower))]))
    pure (cur ++ added)
  else do
    let langLower ← pyLower langJ
    pure (cur ++ [Json.dict [
      ("format_id", .str (pyStr experienceId ++ "-" ++ pyStr srcType)),
      ("url", srcUrl),
      ("language", langJ),
      ("format_note", .str version),
      ("source_preference", .int (srcPref (pyLowerStr version))),
      ("language_preference", .int (langPref langLower))]])

/-- The `for al in ...: if langCode == al.get('languageCode'): ...; break`
loop of `FunimationMetaIE._real_extract` (lines 465-468). -/
def FunimationMetaIE.renameLangLoop (f langCode : Json) : List Json → Except PyErr Json
  | [] => .ok f
  | al :: rest => do
    let lc ← pyGet al "languageCode"
    if langCode = lc then
      pure (jsonUpdate f [("language", traversePath al ["name", "en"])])
    else FunimationMetaIE.renameLangLoop f langCode rest

/-- One iteration of the language-renaming pass of
`FunimationMetaIE._real_extract` (lines 462-468): replace the format's
`'language'` with the display name the show metadata gives for its
language code under the format's version.  `traverse_obj` yields `None`
when the path is absent, which the `for` then fails to iterate. -/
def FunimationMetaIE.renameLang (showInfo : Json) (f : Json) : Except PyErr Json := do
  let langCode ← pyGet f "language"
  let versionJ ← pyGet f "format_note"
  let vlow ← pyLower versionJ
  let als ← pyIter (traversePath showInfo ["videoOptions", "languageByVersion", vlow, "audioLanguages"])
  FunimationMetaIE.renameLangLoop f langCode als

/-- The inputs of `FunimationMetaIE._real_extract`: the URL match group,
the cloudfront episode JSON download, the current class token
(`Json.null` when unset), the `'src_token'` cookie value when present,
the playback downloads of the authenticated and anonymous endpoints, the
configuration arguments, the subtitle gate and the m3u8 oracle. -/
structure MetaInput where
  episodeSlug : String
  showInfoResp : Except PyErr Json
  classToken : Json
  srcTokenCookie : Option String
  playAuth : Except PyErr Json
  playAnon : Except PyErr Json
  reqLangs : List String
  reqVers : List String
  writeSubtitles : Bool
  m3u8 : Json → List (List (String × Json))

/-- The token handling and playback download of
`FunimationMetaIE._real_extract` (lines 430-438):
`if not self._TOKEN: self._TOKEN = cookies.get('src_token')`, then a
truthy `self._TOKEN` selects the authenticated playback endpoint — whose
header reads `self._TOKEN.value`, an attribute only the cookie Morsel
has, so a truthy *class* token (the login token string) raises
`AttributeError` there. -/
def FunimationMetaIE.playbackDownload (classToken : Json) (srcTokenCookie : Option String)
    (playAuth playAnon : Except PyErr Json) : Except PyErr Json :=
  if pyTruthy classToken then .error .attributeError
  else match srcTokenCookie with
    | some _ => playAuth
    | none => playAnon

/-- The shared body of the primary handling (lines 453-455) and the
`for fallback in fallback_playback` loop (lines 457-460): append the
playback's formats with `add_format` and merge its subtitles with
`extract_subtitles` (the latter gated by the framework on the user
asking for subtitles). -/
def FunimationMetaIE.playbackStep (m3u8 : Json → List (List (String × Json)))
    (reqLangs reqVers : List String) (writeSubtitles : Bool) (displayId : String)
    (st : List Json × Subs) (pb : Json) : Except PyErr (List Json × Subs) := do
  let c ← FunimationMetaIE.add_format m3u8 reqLangs reqVers displayId st.1 pb
  let s ← if writeSubtitles then FunimationMetaIE._get_subtitles st.2 pb else pure st.2
  pure (c, s)

/-- Lines 440-460 of `FunimationMetaIE._real_extract`: extract the
`'primary'` and `'fallback'` playback objects of the playback response
(defaulting to `{}` / `[]`) and run `playbackStep` over them, starting
from `current_formats = []`, `subtitles = {}`. -/
def FunimationMetaIE.collectPlaybacks (m3u8 : Json → List (List (String × Json)))
    (reqLangs reqVers : List String) (writeSubtitles : Bool) (displayId : String)
    (page : Json) : Except PyErr (List Json × Subs) := do
  let primaryJ ← pyGet page "primary"
  let primary := pyOr primaryJ (.dict [])
  let fallbackJ ← pyGet page "fallback"
  let fallback := pyOr fallbackJ (.list [])
  let st1 ← if pyTruthy primary then
      FunimationMetaIE.playbackStep m3u8 reqLangs reqVers writeSubtitles displayId
        ([], []) primary
    else pure (([] : List Json), ([] : Subs))
  if pyTruthy fallback then do
    let fbs ← pyIter fallback
    fbs.foldlM (FunimationMetaIE.playbackStep m3u8 reqLangs reqVers writeSubtitles displayId) st1
  else pure st1

/-- The `for image in show_info.get('images')` body (lines 473-475). -/
def FunimationMetaIE.thumbStep (acc : List Json) (image : Json) : Except PyErr (List Json) := do
  let p ← pyGet image "path"
  if pyTruthy p then do
    let p2 ← pyGet image "path"
    pure (acc ++ [Json.dict [("url", p2)]])
  else pure acc

/-- `FunimationMetaIE._real_extract` (lines 418-499). -/
def FunimationMetaIE._real_extract (inp : MetaInput) : Except PyErr ExtractResult := do
  let showInfo ← inp.showInfoResp
  let venueId ← pyGet showInfo "venueId"
  let episodeId := pyStr venueId
  let displayId := if inp.episodeSlug ≠ "" then inp.episodeSlug else episodeId
  let page ← FunimationMetaIE.playbackDownload inp.classToken inp.srcTokenCookie
    inp.playAuth inp.playAnon
  let st2 ← FunimationMetaIE.collectPlaybacks inp.m3u8 inp.reqLangs inp.reqVers
    inp.writeSubtitles displayId page
  let currentFormats ← st2.1.mapM (FunimationMetaIE.renameLang showInfo)
  let imagesJ ← pyGet showInfo "images"
  let images ← pyIter imagesJ
  let thumbnails ← images.foldlM FunimationMetaIE.thumbStep ([] : List Json)
  let _ ← checkNoFormats currentFormats inp.reqLangs inp.reqVers
  let formats := _remove_duplicate_formats currentFormats
  let durJ ← pyGet showInfo "duration"
  let epNum ← pyGet showInfo "episodeNumber"
  pure (.info {
    id := episodeId
    oldArchiveIds := []
    displayId := .str displayId
    duration := durJ
    title := traversePath showInfo ["name", "en"]
    description := traversePath showInfo ["synopsis", "en"]
    episode := traversePath showInfo ["name", "en"]
    episodeNumber := int_or_none epNum
    episodeId := episodeId
    season := traversePath showInfo ["season", "name", "en"]
    seasonNumber := int_or_none (traversePath showInfo ["season", "number"])
    seasonId := str_or_none (traversePath showInfo ["season", "id"])
    series := traversePath showInfo ["show", "name", "en"]
    formats := formats
    thumbnails := thumbnails
    subtitles := st2.2 })

/-- A format dict carrying the language/version tags the experience loop
of `FunimationIE._real_extract` stamps on every format it emits. -/
def TaggedFmt (lang version : String) (f : Json) : Prop :=
  (∃ kvs, f = Json.dict kvs)
  ∧ f.lookup "language" = some (.str lang)
  ∧ f.lookup "format_note" = some (.str version)

/-- A format traceable to an experience that passed the language/version
filter: it carries the language and version tags of some experience of
`exps` for which `langVersionSkip` is false. -/
def FmtFromExperience (reqLangs reqVers : List String)
    (exps : List (String × String × Json)) (f : Json) : Prop :=
  ∃ lang version fmt, (lang, version, fmt) ∈ exps
    ∧ langVersionSkip reqLangs reqVers lang version = false
    ∧ f.lookup "language" = some (.str lang)
    ∧ f.lookup "format_note" = some (.str version)

/-! ## Theorems -/

/-- C7 counterexample: the claim says `_get_region` "returns the 'region'
cookie value when present"; with the cookie present but holding the empty
string (and nothing else available) the code returns `'US'`, not the
cookie value — Python truthiness, not presence, decides. -/
theorem C7_counterexample :
    FunimationBaseIE._get_region (some "") .null none = .str "US"
    ∧ Json.str "US" ≠ .str "" := by
  exact ⟨rfl, by decide⟩

/-- C7 (amended): `_get_region` never raises (it is total) and resolves
the region as: the cookie value when the cookie is present with a
non-empty value; the `geo_bypass_country` parameter when the cookie is
absent and the parameter truthy; otherwise the `'region'` field of the
geo-service response when truthy, with final fallback `'US'` (also when
the geo download failed).  A present-but-empty cookie value skips
`geo_bypass_country` entirely. -/
theorem C7_amended_get_region (c : Option String) (g : Json) (r : Option Json) :
    (∀ v, c = some v → v ≠ "" → FunimationBaseIE._get_region c g r = .str v)
    ∧ (c = none → pyTruthy g → FunimationBaseIE._get_region c g r = g)
    ∧ (c = some "" → FunimationBaseIE._get_region c g r
        = pyOr (traverse_region r) (.str "US"))
    ∧ (c = none → ¬ pyTruthy g → FunimationBaseIE._get_region c g r
        = pyOr (traverse_region r) (.str "US"))
    ∧ ((c = some "" ∨ c = none ∧ ¬ pyTruthy g) → ¬ pyTruthy (traverse_region r) →
        FunimationBaseIE._get_region c g r = .str "US") := by
  unfold FunimationBaseIE._get_region pyOr
  refine ⟨?_, ?_, ?_, ?_, ?_⟩
  · rintro v rfl hv
    simp [pyTruthy, hv]
  · rintro rfl hg
    simp [hg]
  · rintro rfl
    simp [pyTruthy, pyOr]
  · rintro rfl hg
    simp [hg, pyOr]
  · rintro (rfl | ⟨rfl, hg⟩) hgeo
    · simp [show pyTruthy (Json.str "") = false by decide, hgeo]
    · simp [hg, hgeo]

/-- C7 witness: a present, non-empty cookie value wins even over a truthy
`geo_bypass_country`. -/
theorem C7_witness :
    FunimationBaseIE._get_region (some "GB") (.str "DE") none = .str "GB" :=
  (C7_amended_get_region (some "GB") (.str "DE") none).1 "GB" rfl (by decide)

/-- C6 counterexample: the claim says that while `_TOKEN` "is already
set", `_perform_login` performs no HTTP request and leaves `_TOKEN`
unchanged.  With `_TOKEN` set to the (falsy) empty string, the guard
`if self._TOKEN:` does not fire: the login request is performed and the
token is replaced. -/
theorem C6_counterexample :
    FunimationBaseIE._perform_login (.str "") (.ok (.dict [("token", .str "tok123")])) .null
      = .ok (.str "tok123", ["https://prod-api-funimationnow.dadcdigital.com/api/auth/login/"])
    ∧ Json.str "tok123" ≠ .str ""
    ∧ (["https://prod-api-funimationnow.dadcdigital.com/api/auth/login/"] : List String) ≠ [] := by
  exact ⟨rfl, by decide, by decide⟩

/-- C6 (amended): while `FunimationBaseIE._TOKEN` holds a *truthy* value,
`_perform_login` performs no HTTP request and leaves the token unchanged
(for every possible login response); and a first login (token unset or
falsy) whose response carries a `'token'` field stores exactly that field
as the new token. -/
theorem C6_amended_perform_login (tok : Json) (resp : Except PyErr Json) (errBody : Json) :
    (pyTruthy tok → FunimationBaseIE._perform_login tok resp errBody = .ok (tok, []))
    ∧ (¬ pyTruthy tok → ∀ data t, resp = .ok data → data.lookup "token" = some t →
        FunimationBaseIE._perform_login tok resp errBody
          = .ok (t, ["https://prod-api-funimationnow.dadcdigital.com/api/auth/login/"])) := by
  constructor
  · intro ht
    unfold FunimationBaseIE._perform_login
    simp [ht]
  · rintro ht data t rfl hlook
    unfold FunimationBaseIE._perform_login
    cases data with
    | dict kvs =>
      simp only [ht, if_neg, Bool.not_eq_true] at *
      simp [ht, pyItem, hlook]
    | null => simp [Json.lookup] at hlook
    | bool b => simp [Json.lookup] at hlook
    | int n => simp [Json.lookup] at hlook
    | str s => simp [Json.lookup] at hlook
    | list xs => simp [Json.lookup] at hlook

/-- C6 witness: a truthy token short-circuits login (for an arbitrary
response value), and a first login stores the response's token. -/
theorem C6_witness :
    FunimationBaseIE._perform_login (.str "t0") (.error .typeError) .null = .ok (.str "t0", [])
    ∧ FunimationBaseIE._perform_login .null (.ok (.dict [("token", .str "abc")])) .null
      = .ok (.str "abc", ["https://prod-api-funimationnow.dadcdigital.com/api/auth/login/"]) :=
  ⟨(C6_amended_perform_login (.str "t0") (.error .typeError) .null).1 (by decide),
   (C6_amended_perform_login .null (.ok (.dict [("token", .str "abc")])) .null).2
     (by decide) (.dict [("token", .str "abc")]) (.str "abc") rfl (by decide)⟩

/-- C2: the extractor only degrades gracefully for an `ExtractorError`
whose cause is an HTTP 404.  Evaluating `FunimationPageIE._real_extract`
at an episode-lookup failure with a 500 cause: the bare
`except ExtractorError` clause swallows the exception without re-raising,
and the player-redirect line then reads the never-assigned local
`video_id`, raising `UnboundLocalError` — not the cloudfront redirect the
claim describes, and not the original error either.  The 404 case does
redirect to the `FunimationMetaIE` endpoint. -/
theorem C2_failing_input_eval :
    FunimationPageIE._real_extract none "showX" "epX"
      (.error (.extractorError "HTTP Error 500" false (some 500)))
      = .error (.unboundLocal "video_id")
    ∧ FunimationPageIE._real_extract none "showX" "epX"
      (.error (.extractorError "oops" false none))
      = .error (.unboundLocal "video_id")
    ∧ FunimationPageIE._real_extract none "showX" "epX"
      (.error (.extractorError "404" false (some 404)))
      = .ok (.urlResult ⟨"https://d33et77evd9bgg.cloudfront.net/data/v1/episodes/epX.json",
          FunimationMetaIE.ie_key, .null, .null⟩) :=
  ⟨rfl, rfl, rfl⟩

/-- `Except` bind on a success, for rewriting monadic chains. -/
theorem exc_bind_ok {σ β : Type} (a : σ) (f : σ → Except PyErr β) :
    (Except.ok a >>= f) = f a := rfl

/-- `Except` bind on an error. -/
theorem exc_bind_error {σ β : Type} (e : PyErr) (f : σ → Except PyErr β) :
    ((Except.error e : Except PyErr σ) >>= f) = .error e := rfl

/-- A monadic fold whose step always succeeds on the list's elements
succeeds. -/
theorem foldlM_ok {α σ : Type} (step : σ → α → Except PyErr σ) :
    ∀ (xs : List α), (∀ s a, a ∈ xs → ∃ s', step s a = .ok s') →
      ∀ s, ∃ s', xs.foldlM step s = .ok s'
  | [], _, s => ⟨s, rfl⟩
  | a :: as, h, s => by
    obtain ⟨s1, h1⟩ := h s a (List.mem_cons_self a as)
    obtain ⟨s2, h2⟩ := foldlM_ok step as (fun s b hb => h s b (List.mem_cons_of_mem _ hb)) s1
    exact ⟨s2, by rw [List.foldlM_cons, h1, exc_bind_ok, h2]⟩

/-- A monadic map whose function succeeds on the list's elements
succeeds. -/
theorem mapM_ok {α β : Type} (f : α → Except PyErr β) :
    ∀ (xs : List α), (∀ a ∈ xs, ∃ b, f a = .ok b) →
      ∃ ys, xs.mapM f = .ok ys
  | [], _ => ⟨[], rfl⟩
  | a :: as, h => by
    obtain ⟨b, hb⟩ := h a (List.mem_cons_self a as)
    obtain ⟨ys, hys⟩ := mapM_ok f as (fun x hx => h x (List.mem_cons_of_mem _ hx))
    exact ⟨b :: ys, by rw [List.mapM_cons, hb, exc_bind_ok, hys]; rfl⟩

/-- A monadic fold preserves any invariant its step preserves. -/
theorem foldlM_preserve {α σ : Type} (P : σ → Prop) (step : σ → α → Except PyErr σ)
    (hstep : ∀ s a s', P s → step s a = .ok s' → P s') :
    ∀ (xs : List α) (s s' : σ), P s → xs.foldlM step s = .ok s' → P s'
  | [], s, s', h, heq => by
    rw [List.foldlM_nil] at heq
    cases heq
    exact h
  | a :: as, s, s', h, heq => by
    rw [List.foldlM_cons] at heq
    cases h1 : step s a with
    | error e => rw [h1, exc_bind_error] at heq; cases heq
    | ok s1 =>
      rw [h1, exc_bind_ok] at heq
      exact foldlM_preserve P step hstep as s1 s' (hstep s a s1 h h1) heq

/-- C3 counterexample: each of the three parsers raises on an input
missing one of the fields the claim calls optional: an experience without
`'sources'` (the `for` iterates `None`), a truthy playback-info without
`'subtitles'` (same), and a playback-info without `'version'`
(`None.capitalize()`). -/
theorem C3_counterexample :
    FunimationIE._get_subtitles (fun _ => none) [] "1"
      (.dict [("languages", .dict [("english", .dict [("a", .dict [("uncut",
        .dict [("experienceId", .int 1)])])])])]) = .error .typeError
    ∧ FunimationMetaIE._get_subtitles [] (.dict [("version", .str "Uncut")])
      = .error .typeError
    ∧ FunimationMetaIE.add_format (fun _ => []) [] [] "d" []
      (.dict [("audioLanguage", .str "Japanese")]) = .error .attributeError :=
  ⟨rfl, rfl, rfl⟩

/-- An `Except` value with `isOk` holds an `ok`. -/
theorem exists_ok_of_isOk {σ : Type} {e : Except PyErr σ} (h : e.isOk = true) :
    ∃ x, e = .ok x := by
  cases e with
  | ok x => exact ⟨x, rfl⟩
  | error e => simp [Except.isOk, Except.toBool] at h

/-- `FunimationIE.subTTStep` completes on any text-track object whose
`'type'` is a string whenever its `'src'` is truthy — `'src'`, `'label'`
and `'language'` may be missing. -/
theorem subTTStep_ok (version : String) (subs : Subs) (tt : Json)
    (hd : ∃ kvs, tt = Json.dict kvs)
    (hty : pyTruthy ((tt.lookup "src").getD .null) → ∃ ts, tt.lookup "type" = some (.str ts)) :
    ∃ subs', FunimationIE.subTTStep version subs tt = .ok subs' := by
  obtain ⟨kvs, rfl⟩ := hd
  unfold FunimationIE.subTTStep
  by_cases hsrc : pyTruthy (((Json.dict kvs).lookup "src").getD .null)
  case neg =>
    refine ⟨subs, ?_⟩
    rw [show pyGet (Json.dict kvs) "src" = .ok (((Json.dict kvs).lookup "src").getD .null) from rfl,
      exc_bind_ok]
    simp only [hsrc, Bool.false_eq_true, not_false_eq_true, if_pos]
    rfl
  case pos =>
    obtain ⟨ts, hts⟩ := hty hsrc
    obtain ⟨v, hv⟩ : ∃ v, (Json.dict kvs).lookup "src" = some v := by
      cases h : (Json.dict kvs).lookup "src" with
      | none => rw [h] at hsrc; simp [pyTruthy] at hsrc
      | some v => exact ⟨v, rfl⟩
    apply exists_ok_of_isOk
    rw [show pyGet (Json.dict kvs) "src" = .ok (((Json.dict kvs).lookup "src").getD .null) from rfl,
      exc_bind_ok, if_neg (by simp [hsrc])]
    rw [show pyGet (Json.dict kvs) "type" = .ok (((Json.dict kvs).lookup "type").getD .null) from rfl,
      hts]
    rw [show (some (Json.str ts)).getD Json.null = Json.str ts from rfl, exc_bind_ok]
    rw [show pyUpper (Json.str ts) = .ok (pyUpperStr ts) from rfl, exc_bind_ok]
    rw [show pyItem (Json.dict kvs) "src" =
      (match (Json.dict kvs).lookup "src" with
       | some v => Except.ok v
       | none => Except.error (.keyError "src")) from rfl]
    rw [hv]
    rw [show (match some v with
       | some v => Except.ok v
       | none => (Except.error (.keyError "src") : Except PyErr Json)) = Except.ok v from rfl,
      exc_bind_ok]
    rw [show pyGet (Json.dict kvs) "label" = .ok (((Json.dict kvs).lookup "label").getD .null) from rfl,
      exc_bind_ok]
    rw [show pyGetD (Json.dict kvs) "language" (.str "und")
      = .ok (((Json.dict kvs).lookup "language").getD (.str "und")) from rfl, exc_bind_ok]
    rfl

/-- `FunimationIE.subSourceStep` completes on any source carrying a
`'textTracks'` list of well-formed text tracks. -/
theorem subSourceStep_ok (version : String) (subs : Subs) (source : Json)
    (h : ∃ tts, source.lookup "textTracks" = some (.list tts) ∧
      ∀ tt ∈ tts, (∃ kvs, tt = Json.dict kvs) ∧
        (pyTruthy ((tt.lookup "src").getD .null) → ∃ ts, tt.lookup "type" = some (.str ts))) :
    ∃ subs', FunimationIE.subSourceStep version subs source = .ok subs' := by
  obtain ⟨tts, hlook, htts⟩ := h
  obtain ⟨kvs, rfl⟩ : ∃ kvs, source = Json.dict kvs := by
    cases source with
    | dict kvs => exact ⟨kvs, rfl⟩
    | null => simp [Json.lookup] at hlook
    | bool b => simp [Json.lookup] at hlook
    | int n => simp [Json.lookup] at hlook
    | str s => simp [Json.lookup] at hlook
    | list xs => simp [Json.lookup] at hlook
  obtain ⟨subs', h'⟩ := foldlM_ok _ tts
    (fun s tt htt => subTTStep_ok version s tt (htts tt htt).1 (htts tt htt).2) subs
  refine ⟨subs', ?_⟩
  unfold FunimationIE.subSourceStep
  rw [show pyGet (Json.dict kvs) "textTracks"
    = .ok (((Json.dict kvs).lookup "textTracks").getD .null) from rfl, exc_bind_ok, hlook]
  rw [show (some (Json.list tts)).getD Json.null = Json.list tts from rfl]
  rw [show pyIter (Json.list tts) = .ok tts from rfl, exc_bind_ok]
  exact h'

/-- `FunimationIE.subExpStep` completes on any experience carrying a
`'sources'` list of well-formed sources. -/
theorem subExpStep_ok (subs : Subs) (t : String × String × Json)
    (h : ∃ srcs, (t.2.2).lookup "sources" = some (.list srcs) ∧
      ∀ s ∈ srcs, ∃ tts, s.lookup "textTracks" = some (.list tts) ∧
        ∀ tt ∈ tts, (∃ kvs, tt = Json.dict kvs) ∧
          (pyTruthy ((tt.lookup "src").getD .null) → ∃ ts, tt.lookup "type" = some (.str ts))) :
    ∃ subs', FunimationIE.subExpStep subs t = .ok subs' := by
  obtain ⟨srcs, hlook, hsrcs⟩ := h
  obtain ⟨kvs, hk⟩ : ∃ kvs, t.2.2 = Json.dict kvs := by
    cases hs : t.2.2 with
    | dict kvs => exact ⟨kvs, rfl⟩
    | null => rw [hs] at hlook; simp [Json.lookup] at hlook
    | bool b => rw [hs] at hlook; simp [Json.lookup] at hlook
    | int n => rw [hs] at hlook; simp [Json.lookup] at hlook
    | str s => rw [hs] at hlook; simp [Json.lookup] at hlook
    | list xs => rw [hs] at hlook; simp [Json.lookup] at hlook
  obtain ⟨subs', h'⟩ := foldlM_ok _ srcs
    (fun s src hsrc => subSourceStep_ok t.2.1 s src (hsrcs src hsrc)) subs
  refine ⟨subs', ?_⟩
  unfold FunimationIE.subExpStep
  rw [hk] at hlook
  rw [hk, show pyGet (Json.dict kvs) "sources"
    = .ok (((Json.dict kvs).lookup "sources").getD .null) from rfl, exc_bind_ok, hlook]
  rw [show (some (Json.list srcs)).getD Json.null = Json.list srcs from rfl]
  rw [show pyIter (Json.list srcs) = .ok srcs from rfl, exc_bind_ok]
  exact h'

/-- `FunimationMetaIE.trackStep` completes on any track object under any
playback-info object — `'filePath'`, `'languageCode'`, `'contentType'`
and `'version'` may all be missing. -/
theorem trackStep_ok (pkvs : List (String × Json)) (subs : Subs) (track : Json)
    (hd : ∃ kvs, track = Json.dict kvs) :
    ∃ subs', FunimationMetaIE.trackStep (Json.dict pkvs) subs track = .ok subs' := by
  obtain ⟨kvs, rfl⟩ := hd
  apply exists_ok_of_isOk
  unfold FunimationMetaIE.trackStep
  rw [show pyGet (Json.dict pkvs) "version"
    = .ok (((Json.dict pkvs).lookup "version").getD .null) from rfl, exc_bind_ok]
  rw [show pyGet (Json.dict kvs) "filePath"
    = .ok (((Json.dict kvs).lookup "filePath").getD .null) from rfl, exc_bind_ok]
  rw [show pyGet (Json.dict kvs) "languageCode"
    = .ok (((Json.dict kvs).lookup "languageCode").getD .null) from rfl, exc_bind_ok]
  rw [show pyGet (Json.dict kvs) "contentType"
    = .ok (((Json.dict kvs).lookup "contentType").getD .null) from rfl, exc_bind_ok]
  rw [show pyGetD (Json.dict kvs) "languageCode" (.str "und")
    = .ok (((Json.dict kvs).lookup "languageCode").getD (.str "und")) from rfl, exc_bind_ok]
  rfl

/-- `FunimationMetaIE._get_subtitles` completes whenever the
playback-info carries a `'subtitles'` list of objects. -/
theorem meta_get_subtitles_ok (subs : Subs) (pb : Json) (tracks : List Json)
    (hlook : pb.lookup "subtitles" = some (.list tracks))
    (htracks : ∀ track ∈ tracks, ∃ kvs, track = Json.dict kvs) :
    ∃ subs', FunimationMetaIE._get_subtitles subs pb = .ok subs' := by
  obtain ⟨pkvs, rfl⟩ : ∃ pkvs, pb = Json.dict pkvs := by
    cases pb with
    | dict pkvs => exact ⟨pkvs, rfl⟩
    | null => simp [Json.lookup] at hlook
    | bool b => simp [Json.lookup] at hlook
    | int n => simp [Json.lookup] at hlook
    | str s => simp [Json.lookup] at hlook
    | list xs => simp [Json.lookup] at hlook
  have htr : pyTruthy (Json.dict pkvs) = true := by
    cases pkvs with
    | nil => simp [Json.lookup] at hlook
    | cons a l => simp [pyTruthy]
  obtain ⟨subs', h'⟩ := foldlM_ok _ tracks
    (fun s track ht => trackStep_ok pkvs s track (htracks track ht)) subs
  refine ⟨subs', ?_⟩
  unfold FunimationMetaIE._get_subtitles
  rw [if_neg (by simp [htr])]
  rw [show pyGet (Json.dict pkvs) "subtitles"
    = .ok (((Json.dict pkvs).lookup "subtitles").getD .null) from rfl, exc_bind_ok, hlook]
  rw [show (some (Json.list tracks)).getD Json.null = Json.list tracks from rfl]
  rw [show pyIter (Json.list tracks) = .ok tracks from rfl, exc_bind_ok]
  exact h'

/-- `FunimationMetaIE.add_format` completes whenever the playback-info's
`'version'` and `'audioLanguage'` are strings — `'venueVideoId'`,
`'manifestPath'` and `'fileExt'` may be missing. -/
theorem add_format_ok (m3u8 : Json → List (List (String × Json)))
    (reqLangs reqVers : List String) (displayId : String) (cur : List Json)
    (pkvs : List (String × Json)) (pbVer pbLang : String)
    (hver : (Json.dict pkvs).lookup "version" = some (.str pbVer))
    (hlang : (Json.dict pkvs).lookup "audioLanguage" = some (.str pbLang)) :
    ∃ cur', FunimationMetaIE.add_format m3u8 reqLangs reqVers displayId cur (Json.dict pkvs)
      = .ok cur' := by
  apply exists_ok_of_isOk
  unfold FunimationMetaIE.add_format
  rw [show pyGet (Json.dict pkvs) "venueVideoId"
    = .ok (((Json.dict pkvs).lookup "venueVideoId").getD .null) from rfl, exc_bind_ok]
  rw [show pyGet (Json.dict pkvs) "audioLanguage"
    = .ok (((Json.dict pkvs).lookup "audioLanguage").getD .null) from rfl, hlang]
  rw [show (some (Json.str pbLang)).getD Json.null = Json.str pbLang from rfl, exc_bind_ok]
  rw [show pyGet (Json.dict pkvs) "version"
    = .ok (((Json.dict pkvs).lookup "version").getD .null) from rfl, hver]
  rw [show (some (Json.str pbVer)).getD Json.null = Json.str pbVer from rfl, exc_bind_ok]
  rw [show pyCapitalizeJson (Json.str pbVer) = .ok (pyCapitalize pbVer) from rfl, exc_bind_ok]
  rw [show pyGet (Json.dict pkvs) "manifestPath"
    = .ok (((Json.dict pkvs).lookup "manifestPath").getD .null) from rfl, exc_bind_ok]
  rw [show pyGet (Json.dict pkvs) "fileExt"
    = .ok (((Json.dict pkvs).lookup "fileExt").getD .null) from rfl, exc_bind_ok]
  by_cases hm : (((Json.dict pkvs).lookup "fileExt").getD .null) = Json.str "m3u8"
  · rw [if_pos hm]
    obtain ⟨ys, hys⟩ := mapM_ok
      (fun f => do
        let langLower ← pyLower (Json.str pbLang)
        pure (jsonUpdate f [("language", Json.str pbLang), ("format_note", .str (pyCapitalize pbVer)),
          ("source_preference", .int ((qualities ((if reqVers.isEmpty then ["uncut", "simulcast"] else reqVers).reverse)) (pyLowerStr (pyCapitalize pbVer)))),
          ("language_preference", .int ((qualities ((if reqLangs.isEmpty then [""] else reqLangs).reverse)) langLower))]))
      ((m3u8 (((Json.dict pkvs).lookup "manifestPath").getD .null)).map Json.dict)
      (fun a _ => ⟨_, rfl⟩)
    rw [hys, exc_bind_ok]
    rfl
  · rw [if_neg hm]
    rw [show pyLower (Json.str pbLang) = .ok (pyLowerStr pbLang) from rfl, exc_bind_ok]
    rfl

/-- C3 (amended): the parsers tolerate genuinely optional fields —
`'src'`, `'label'`, `'language'` on text tracks, `'filePath'`,
`'languageCode'`, `'contentType'` on subtitle tracks, `'venueVideoId'`,
`'manifestPath'`, `'fileExt'` on playback-infos — but *not* the fields
the claim lists: each experience must carry a `'sources'` list, each
source a `'textTracks'` list, each text track with a truthy `'src'` a
string `'type'`; a truthy playback-info must carry a `'subtitles'` list
of objects; and `add_format` needs string `'version'` and
`'audioLanguage'`.  Under those conditions all three parsers complete
without raising. -/
theorem C3_amended_optional_fields
    (pageShow : String → Option Json) (subs : Subs) (experienceId : String)
    (episode : Json) (exps : List (String × String × Json))
    (pb : Json) (tracks : List Json)
    (m3u8 : Json → List (List (String × Json)))
    (reqLangs reqVers : List String) (displayId : String) (cur : List Json)
    (pkvs : List (String × Json)) (pbVer pbLang : String) :
    (FunimationIE._get_experiences episode = .ok exps →
      (∀ t ∈ exps, ∃ srcs, (t.2.2).lookup "sources" = some (.list srcs) ∧
        ∀ s ∈ srcs, ∃ tts, s.lookup "textTracks" = some (.list tts) ∧
          ∀ tt ∈ tts, (∃ kvs, tt = Json.dict kvs) ∧
            (pyTruthy ((tt.lookup "src").getD .null) →
              ∃ ts, tt.lookup "type" = some (.str ts))) →
      ∃ subs', FunimationIE._get_subtitles pageShow subs experienceId episode = .ok subs')
    ∧ (¬ pyTruthy pb → FunimationMetaIE._get_subtitles subs pb = .ok subs)
    ∧ (pb.lookup "subtitles" = some (.list tracks) →
        (∀ track ∈ tracks, ∃ kvs, track = Json.dict kvs) →
        ∃ subs', FunimationMetaIE._get_subtitles subs pb = .ok subs')
    ∧ ((Json.dict pkvs).lookup "version" = some (.str pbVer) →
        (Json.dict pkvs).lookup "audioLanguage" = some (.str pbLang) →
        ∃ cur', FunimationMetaIE.add_format m3u8 reqLangs reqVers displayId cur
          (Json.dict pkvs) = .ok cur') := by
  refine ⟨?_, ?_, ?_, ?_⟩
  · intro hexps hwf
    obtain ⟨subs', h'⟩ := foldlM_ok _ exps (fun s t ht => subExpStep_ok s t (hwf t ht)) subs
    refine ⟨subs', ?_⟩
    cases episode with
    | str s =>
      rw [show FunimationIE._get_experiences (Json.str s) = .error .attributeError from rfl] at hexps
      exact Except.noConfusion hexps
    | null =>
      have hred : FunimationIE._get_subtitles pageShow subs experienceId Json.null
          = FunimationIE.subtitlesFromEpisode subs Json.null := rfl
      rw [hred]
      unfold FunimationIE.subtitlesFromEpisode
      rw [hexps, exc_bind_ok]
      exact h'
    | bool b =>
      have hred : FunimationIE._get_subtitles pageShow subs experienceId (Json.bool b)
          = FunimationIE.subtitlesFromEpisode subs (Json.bool b) := rfl
      rw [hred]
      unfold FunimationIE.subtitlesFromEpisode
      rw [hexps, exc_bind_ok]
      exact h'
    | int n =>
      have hred : FunimationIE._get_subtitles pageShow subs experienceId (Json.int n)
          = FunimationIE.subtitlesFromEpisode subs (Json.int n) := rfl
      rw [hred]
      unfold FunimationIE.subtitlesFromEpisode
      rw [hexps, exc_bind_ok]
      exact h'
    | list xs =>
      have hred : FunimationIE._get_subtitles pageShow subs experienceId (Json.list xs)
          = FunimationIE.subtitlesFromEpisode subs (Json.list xs) := rfl
      rw [hred]
      unfold FunimationIE.subtitlesFromEpisode
      rw [hexps, exc_bind_ok]
      exact h'
    | dict kvs =>
      have hred : FunimationIE._get_subtitles pageShow subs experienceId (Json.dict kvs)
          = FunimationIE.subtitlesFromEpisode subs (Json.dict kvs) := rfl
      rw [hred]
      unfold FunimationIE.subtitlesFromEpisode
      rw [hexps, exc_bind_ok]
      exact h'
  · intro hfal
    unfold FunimationMetaIE._get_subtitles
    rw [if_pos (by simpa using hfal)]
    rfl
  · intro hlook htracks
    exact meta_get_subtitles_ok subs pb tracks hlook htracks
  · intro hver hlang
    exact add_format_ok m3u8 reqLangs reqVers displayId cur pkvs pbVer pbLang hver hlang

/-- C3 witness: concrete well-formed inputs (with the optional fields
absent) on which each parser completes. -/
theorem C3_witness :
    (∃ subs', FunimationIE._get_subtitles (fun _ => none) [] "1"
      (.dict [("languages", .dict [("english", .dict [("a", .dict [("uncut",
        .dict [("sources", .list [.dict [("textTracks",
          .list [.dict [("label", .str "English")]])]])])])])])]) = .ok subs')
    ∧ (∃ subs', FunimationMetaIE._get_subtitles []
        (.dict [("subtitles", .list [.dict [("languageCode", .str "en")]])]) = .ok subs')
    ∧ (∃ cur', FunimationMetaIE.add_format (fun _ => []) [] [] "d" []
        (.dict [("version", .str "uncut"), ("audioLanguage", .str "Japanese")]) = .ok cur') := by
  refine ⟨?_, ?_, ?_⟩
  · refine (C3_amended_optional_fields (fun _ => none) [] "1" _
      [("english", "Uncut", Json.dict [("sources", .list [.dict [("textTracks",
        .list [.dict [("label", .str "English")]])]])])]
      .null [] (fun _ => []) [] [] "" [] [] "" "").1 rfl ?_
    intro t ht
    rw [List.mem_singleton] at ht
    subst ht
    refine ⟨[Json.dict [("textTracks", .list [.dict [("label", .str "English")]])]], rfl, ?_⟩
    intro s hs
    rw [List.mem_singleton] at hs
    subst hs
    refine ⟨[Json.dict [("label", .str "English")]], rfl, ?_⟩
    intro tt htt
    rw [List.mem_singleton] at htt
    subst htt
    exact ⟨⟨_, rfl⟩, fun h => by simp [Json.lookup, pyTruthy] at h⟩
  · exact (C3_amended_optional_fields (fun _ => none) [] "" .null []
      (.dict [("subtitles", .list [.dict [("languageCode", .str "en")]])])
      [Json.dict [("languageCode", .str "en")]] (fun _ => []) [] [] "" [] [] "" "").2.2.1
      rfl (fun track ht => by rw [List.mem_singleton] at ht; subst ht; exact ⟨_, rfl⟩)
  · exact (C3_amended_optional_fields (fun _ => none) [] "" .null [] .null []
      (fun _ => []) [] [] "d" []
      [("version", Json.str "uncut"), ("audioLanguage", Json.str "Japanese")]
      "uncut" "Japanese").2.2.2 rfl rfl

/-- Inverting a successful `Except` bind. -/
theorem bind_ok_inv {σ β : Type} {e : Except PyErr σ} {f : σ → Except PyErr β} {b : β}
    (h : (e >>= f) = .ok b) : ∃ a, e = .ok a ∧ f a = .ok b := by
  cases e with
  | ok a => exact ⟨a, rfl, h⟩
  | error err => rw [exc_bind_error] at h; exact Except.noConfusion h

/-- Inverting `pure a = .ok b`. -/
theorem pure_ok_inv {σ : Type} {a b : σ} (h : (pure a : Except PyErr σ) = .ok b) : a = b :=
  Except.ok.inj h

/-- With pairwise-distinct keys, `find?` on a key returns the unique
entry with that key. -/
theorem find_key_unique (s : Subs) (lang : String) (p : String × List Json)
    (hnd : (s.map (·.1)).Nodup) (hp : p ∈ s) (hk : p.1 = lang) :
    s.find? (fun q => q.1 = lang) = some p := by
  induction s with
  | nil => cases hp
  | cons q rest ih =>
    rw [List.map_cons, List.nodup_cons] at hnd
    rcases List.mem_cons.mp hp with rfl | hmem
    · rw [List.find?_cons_of_pos _ (by simp [hk])]
    · have hq : ¬ (q.1 = lang) := by
        intro hql
        exact hnd.1 (by
          rw [hql, ← hk]
          exact List.mem_map_of_mem (·.1) hmem)
      rw [List.find?_cons_of_neg _ (by simp [hq])]
      exact ih hnd.2 hmem

/-- The guarded append `subsAddUnique` preserves the subtitles
invariant. -/
theorem subsAddUnique_inv (s : Subs) (lang : String) (sub : Json) (h : SubsInv s) :
    SubsInv (subsAddUnique s lang sub) := by
  unfold subsAddUnique
  by_cases hmem : sub ∈ subsGet s lang
  · rw [if_pos hmem]; exact h
  · rw [if_neg hmem]
    unfold subsSetdefaultAppend
    by_cases hany : s.any (fun p => p.1 = lang)
    · rw [if_pos hany]
      constructor
      · have hkeys : (s.map (fun p => if p.1 = lang then (p.1, p.2 ++ [sub]) else p)).map (·.1)
            = s.map (·.1) := by
          rw [List.map_map]
          apply List.map_congr_left
          intro p _
          by_cases hk : p.1 = lang <;> simp [hk]
        rw [hkeys]; exact h.1
      · intro q hq
        rw [List.mem_map] at hq
        obtain ⟨p, hp, rfl⟩ := hq
        by_cases hk : p.1 = lang
        · rw [if_pos hk]
          have hfind := find_key_unique s lang p h.1 hp hk
          have hget : subsGet s lang = p.2 := by unfold subsGet; rw [hfind]; rfl
          have hnotin : sub ∉ p.2 := by rw [← hget]; exact hmem
          simp only []
          refine List.Nodup.append (h.2 p hp) (List.nodup_singleton sub) ?_
          intro x hx hx1
          rw [List.mem_singleton] at hx1
          subst hx1
          exact hnotin hx
        · rw [if_neg hk]
          exact h.2 p hp
    · rw [if_neg hany]
      constructor
      · rw [List.map_append]
        have hnot : lang ∉ s.map (·.1) := by
          intro hcon
          rw [List.mem_map] at hcon
          obtain ⟨p, hp, hk⟩ := hcon
          exact hany (List.any_eq_true.mpr ⟨p, hp, by simp [hk]⟩)
        refine List.Nodup.append h.1 (List.nodup_singleton lang) ?_
        intro x hx hx1
        simp only [List.map_cons, List.map_nil, List.mem_singleton] at hx1
        subst hx1
        exact hnot hx
      · intro q hq
        rcases List.mem_append.mp hq with hq | hq
        · exact h.2 q hq
        · rw [List.mem_singleton] at hq; subst hq; simp

/-- `FunimationIE.subTTStep` preserves the subtitles invariant. -/
theorem subTTStep_inv (version : String) (subs : Subs) (tt : Json) (subs' : Subs)
    (h : SubsInv subs) (heq : FunimationIE.subTTStep version subs tt = .ok subs') :
    SubsInv subs' := by
  unfold FunimationIE.subTTStep at heq
  obtain ⟨src, _, heq⟩ := bind_ok_inv heq
  by_cases ht : pyTruthy src
  · rw [if_neg (by simpa using ht)] at heq
    obtain ⟨typ, _, heq⟩ := bind_ok_inv heq
    obtain ⟨stR, _, heq⟩ := bind_ok_inv heq
    obtain ⟨srcVal, _, heq⟩ := bind_ok_inv heq
    obtain ⟨label, _, heq⟩ := bind_ok_inv heq
    obtain ⟨langRaw, _, heq⟩ := bind_ok_inv heq
    rw [← pure_ok_inv heq]
    exact subsAddUnique_inv _ _ _ h
  · rw [if_pos (by simpa using ht)] at heq
    rw [← pure_ok_inv heq]
    exact h

/-- `FunimationIE.subSourceStep` preserves the subtitles invariant. -/
theorem subSourceStep_inv (version : String) (subs : Subs) (source : Json) (subs' : Subs)
    (h : SubsInv subs) (heq : FunimationIE.subSourceStep version subs source = .ok subs') :
    SubsInv subs' := by
  unfold FunimationIE.subSourceStep at heq
  obtain ⟨tts, _, heq⟩ := bind_ok_inv heq
  obtain ⟨ttList, _, heq⟩ := bind_ok_inv heq
  exact foldlM_preserve SubsInv _
    (fun s a s' hs ha => subTTStep_inv version s a s' hs ha) ttList subs subs' h heq

/-- `FunimationIE.subExpStep` preserves the subtitles invariant. -/
theorem subExpStep_inv (subs : Subs) (t : String × String × Json) (subs' : Subs)
    (h : SubsInv subs) (heq : FunimationIE.subExpStep subs t = .ok subs') :
    SubsInv subs' := by
  unfold FunimationIE.subExpStep at heq
  obtain ⟨sources, _, heq⟩ := bind_ok_inv heq
  obtain ⟨srcList, _, heq⟩ := bind_ok_inv heq
  exact foldlM_preserve SubsInv _
    (fun s a s' hs ha => subSourceStep_inv t.2.1 s a s' hs ha) srcList subs subs' h heq

/-- `FunimationIE.subtitlesFromEpisode` preserves the subtitles
invariant. -/
theorem subtitlesFromEpisode_inv (subs : Subs) (episode : Json) (subs' : Subs)
    (h : SubsInv subs) (heq : FunimationIE.subtitlesFromEpisode subs episode = .ok subs') :
    SubsInv subs' := by
  unfold FunimationIE.subtitlesFromEpisode at heq
  obtain ⟨exps, _, heq⟩ := bind_ok_inv heq
  exact foldlM_preserve SubsInv _
    (fun s a s' hs ha => subExpStep_inv s a s' hs ha) exps subs subs' h heq

/-- `FunimationIE._get_subtitles` (including the string-episode
redirection) preserves the subtitles invariant. -/
theorem ie_get_subtitles_inv (pageShow : String → Option Json) (subs : Subs)
    (experienceId : String) (episode : Json) (subs' : Subs)
    (h : SubsInv subs)
    (heq : FunimationIE._get_subtitles pageShow subs experienceId episode = .ok subs') :
    SubsInv subs' := by
  unfold FunimationIE._get_subtitles at heq
  obtain ⟨ep, _, heq⟩ := bind_ok_inv heq
  exact subtitlesFromEpisode_inv subs ep subs' h heq

/-- `FunimationMetaIE.trackStep` preserves the subtitles invariant. -/
theorem trackStep_inv (pb : Json) (subs : Subs) (track : Json) (subs' : Subs)
    (h : SubsInv subs) (heq : FunimationMetaIE.trackStep pb subs track = .ok subs') :
    SubsInv subs' := by
  unfold FunimationMetaIE.trackStep at heq
  obtain ⟨version, _, heq⟩ := bind_ok_inv heq
  obtain ⟨fp, _, heq⟩ := bind_ok_inv heq
  obtain ⟨lc, _, heq⟩ := bind_ok_inv heq
  obtain ⟨ct, _, heq⟩ := bind_ok_inv heq
  obtain ⟨lcD, _, heq⟩ := bind_ok_inv heq
  rw [← pure_ok_inv heq]
  exact subsAddUnique_inv _ _ _ h

/-- `FunimationMetaIE._get_subtitles` preserves the subtitles
invariant. -/
theorem meta_get_subtitles_inv (subs : Subs) (pb : Json) (subs' : Subs)
    (h : SubsInv subs) (heq : FunimationMetaIE._get_subtitles subs pb = .ok subs') :
    SubsInv subs' := by
  unfold FunimationMetaIE._get_subtitles at heq
  by_cases hp : pyTruthy pb
  · rw [if_neg (by simpa using hp)] at heq
    obtain ⟨tracksJ, _, heq⟩ := bind_ok_inv heq
    obtain ⟨tracks, _, heq⟩ := bind_ok_inv heq
    exact foldlM_preserve SubsInv _
      (fun s a s' hs ha => trackStep_inv pb s a s' hs ha) tracks subs subs' h heq
  · rw [if_pos (by simpa using hp)] at heq
    rw [← pure_ok_inv heq]
    exact h

/-- C10: the subtitles mapping never holds duplicates.  Both
`_get_subtitles` implementations preserve the invariant that every
language's list holds pairwise-distinct entries (together with key
uniqueness, which a Python dict guarantees), and the empty dict the
extractors start from satisfies it — so after any sequence of
`_get_subtitles` calls each language's list is duplicate-free. -/
theorem C10_subtitles_no_duplicates :
    (∀ pageShow subs experienceId episode subs', SubsInv subs →
      FunimationIE._get_subtitles pageShow subs experienceId episode = .ok subs' →
      SubsInv subs' ∧ ∀ p ∈ subs', (p.2 : List Json).Nodup)
    ∧ (∀ subs pb subs', SubsInv subs →
      FunimationMetaIE._get_subtitles subs pb = .ok subs' →
      SubsInv subs' ∧ ∀ p ∈ subs', (p.2 : List Json).Nodup)
    ∧ SubsInv [] := by
  refine ⟨?_, ?_, ?_⟩
  · intro pageShow subs experienceId episode subs' h heq
    have h' := ie_get_subtitles_inv pageShow subs experienceId episode subs' h heq
    exact ⟨h', h'.2⟩
  · intro subs pb subs' h heq
    have h' := meta_get_subtitles_inv subs pb subs' h heq
    exact ⟨h', h'.2⟩
  · exact ⟨List.nodup_nil, fun p hp => absurd hp (List.not_mem_nil p)⟩

/-- C10 witness: a concrete run of `FunimationIE._get_subtitles` from the
empty dict whose result provably satisfies the invariant. -/
theorem C10_witness :
    SubsInv [("en_Uncut", [Json.dict [("url", Json.str "u1"), ("name", Json.str "Uncut")]])]
    ∧ SubsInv ([] : Subs) :=
  ⟨(C10_subtitles_no_duplicates.1 (fun _ => none) [] "1"
      (.dict [("languages", .dict [("english", .dict [("a", .dict [("uncut",
        .dict [("sources", .list [.dict [("textTracks", .list [.dict [("src", .str "u1"),
          ("type", .str "full"), ("language", .str "en")]])]])])])])])])
      [("en_Uncut", [Json.dict [("url", Json.str "u1"), ("name", Json.str "Uncut")]])]
      C10_subtitles_no_duplicates.2.2 rfl).1,
   C10_subtitles_no_duplicates.2.2⟩

/-- C9: `_get_episode` raises `ExtractorError` with `fatal=True` when no
episode matches the given experience/episode id, and with `fatal=False`
returns `({}, {}, {})` after only a warning; `FunimationIE._real_extract`
passes `fatal = (episode_slug == None)`, so an error of the fatal lookup
propagates exactly when the player URL carried no slug, and when a slug
is present and no episode is found it instead redirects to the
`FunimationMetaIE` cloudfront endpoint. -/
theorem C9_get_episode_fallbacks :
    (∀ s expId epId seasonsJ seasons,
      pyGetD s "seasons" (.list []) = .ok seasonsJ →
      pyIter seasonsJ = .ok seasons →
      findEpisode seasons expId epId = .ok none →
      FunimationIE._get_episode (some s) expId epId true
        = .error (.extractorError "Unable to find episode information" false none)
      ∧ FunimationIE._get_episode (some s) expId epId false
        = .ok (.dict [], .dict [], .dict [], ["Unable to find episode information"]))
    ∧ (∀ (inp : FunIEInput) (n : Nat) (e : PyErr),
      strToNat? inp.initialId = some n →
      inp.episodeSlug = none →
      FunimationIE._get_episode inp.showData (.int n) none true = .error e →
      FunimationIE._real_extract inp = .error e)
    ∧ (∀ (inp : FunIEInput) (n : Nat) (slug : String) (w : List String),
      strToNat? inp.initialId = some n →
      inp.episodeSlug = some slug →
      FunimationIE._get_episode inp.showData (.int n) none false
        = .ok (.dict [], .dict [], .dict [], w) →
      FunimationIE._real_extract inp
        = .ok (.urlResult ⟨"https://d33et77evd9bgg.cloudfront.net/data/v1/episodes/"
            ++ slug ++ ".json", FunimationMetaIE.ie_key, .null, .null⟩)) := by
  refine ⟨?_, ?_, ?_⟩
  · intro s expId epId seasonsJ seasons h1 h2 h3
    constructor
    · unfold FunimationIE._get_episode
      rw [show showDataOrEmpty (some s) true = .ok s from rfl, exc_bind_ok, h1, exc_bind_ok,
        h2, exc_bind_ok, h3, exc_bind_ok]
      rfl
    · unfold FunimationIE._get_episode
      rw [show showDataOrEmpty (some s) false = .ok s from rfl, exc_bind_ok, h1, exc_bind_ok,
        h2, exc_bind_ok, h3, exc_bind_ok]
      rfl
  · intro inp n e hnat hslug herr
    unfold FunimationIE._real_extract
    rw [hslug, hnat]
    simp only [Option.getD_some, Option.isNone_none]
    rw [herr, exc_bind_error]
  · intro inp n slug w hnat hslug hep
    unfold FunimationIE._real_extract
    rw [hslug, hnat]
    simp only [Option.getD_some, Option.isNone_some]
    rw [hep, exc_bind_ok]
    rfl

/-- C9 witness: a show whose only season has no episodes — the fatal
lookup raises, the non-fatal one warns and returns empty objects; a
slug-less player URL propagates the fatal error, and a slugged one
redirects to the cloudfront endpoint. -/
theorem C9_witness :
    FunimationIE._get_episode
      (some (Json.dict [("seasons", .list [.dict [("episodes", .list [])]])]))
      (.int 1) none true
      = .error (.extractorError "Unable to find episode information" false none)
    ∧ FunimationIE._get_episode
      (some (Json.dict [("seasons", .list [.dict [("episodes", .list [])]])]))
      (.int 1) none false
      = .ok (.dict [], .dict [], .dict [], ["Unable to find episode information"])
    ∧ FunimationIE._real_extract
      ⟨"7", none, none, [], [], false, false, fun _ => none, fun _ => .ok (.dict []), fun _ => []⟩
      = .error (.extractorError "Unable to extract show data" false none)
    ∧ FunimationIE._real_extract
      ⟨"1", some "role-play",
        some (Json.dict [("seasons", .list [.dict [("episodes", .list [])]])]),
        [], [], false, false, fun _ => none, fun _ => .ok (.dict []), fun _ => []⟩
      = .ok (.urlResult ⟨"https://d33et77evd9bgg.cloudfront.net/data/v1/episodes/role-play.json",
          FunimationMetaIE.ie_key, .null, .null⟩) :=
  ⟨(C9_get_episode_fallbacks.1 (Json.dict [("seasons", .list [.dict [("episodes", .list [])]])])
      (.int 1) none (.list [.dict [("episodes", .list [])]]) [.dict [("episodes", .list [])]]
      rfl rfl rfl).1,
   (C9_get_episode_fallbacks.1 (Json.dict [("seasons", .list [.dict [("episodes", .list [])]])])
      (.int 1) none (.list [.dict [("episodes", .list [])]]) [.dict [("episodes", .list [])]]
      rfl rfl rfl).2,
   C9_get_episode_fallbacks.2.1
      ⟨"7", none, none, [], [], false, false, fun _ => none, fun _ => .ok (.dict []), fun _ => []⟩
      7 (.extractorError "Unable to extract show data" false none) rfl rfl rfl,
   C9_get_episode_fallbacks.2.2
      ⟨"1", some "role-play",
        some (Json.dict [("seasons", .list [.dict [("episodes", .list [])]])]),
        [], [], false, false, fun _ => none, fun _ => .ok (.dict []), fun _ => []⟩
      1 "role-play" ["Unable to find episode information"] rfl rfl rfl⟩

/-- Members of `orderedSet`'s fold come from the accumulator or the
list. -/
theorem orderedSet_fold_mem {α : Type} [DecidableEq α] :
    ∀ (xs acc : List α) (y : α),
      y ∈ xs.foldl (fun acc x => if acc.contains x then acc else acc ++ [x]) acc →
      y ∈ acc ∨ y ∈ xs
  | [], _, _, h => .inl h
  | x :: xs, acc, y, h => by
    rw [List.foldl_cons] at h
    rcases orderedSet_fold_mem xs _ y h with h' | h'
    · by_cases hc : acc.contains x
      · rw [if_pos hc] at h'
        exact .inl h'
      · rw [if_neg hc] at h'
        rcases List.mem_append.mp h' with h'' | h''
        · exact .inl h''
        · rw [List.mem_singleton] at h''
          exact .inr (h'' ▸ List.mem_cons_self x xs)
    · exact .inr (List.mem_cons_of_mem x h')

/-- `orderedSet` only drops elements. -/
theorem orderedSet_mem {α : Type} [DecidableEq α] (xs : List α) (y : α)
    (h : y ∈ orderedSet xs) : y ∈ xs := by
  unfold orderedSet at h
  rcases orderedSet_fold_mem xs [] y h with h' | h'
  · cases h'
  · exact h'

/-- Members of a successful `mapM` come from applying the function to a
member of the input. -/
theorem mapM_mem {α β : Type} (f : α → Except PyErr β) :
    ∀ (xs : List α) (ys : List β), xs.mapM f = .ok ys →
      ∀ y ∈ ys, ∃ x, x ∈ xs ∧ f x = .ok y
  | [], ys, h, y, hy => by
    rw [List.mapM_nil] at h
    cases pure_ok_inv h
    cases hy
  | x :: xs, ys, h, y, hy => by
    rw [List.mapM_cons] at h
    obtain ⟨b, hb, h⟩ := bind_ok_inv h
    obtain ⟨rest, hrest, h⟩ := bind_ok_inv h
    cases pure_ok_inv h
    rcases List.mem_cons.mp hy with rfl | hy'
    · exact ⟨x, List.mem_cons_self x xs, hb⟩
    · obtain ⟨x', hx', hfx⟩ := mapM_mem f xs rest hrest y hy'
      exact ⟨x', List.mem_cons_of_mem x hx', hfx⟩

/-- Any entry the `FunimationShowIE` entry builder produces is a
`url_result` of `'%s/%s' % (base_url, slug)` dispatched to
`FunimationPageIE`. -/
theorem showEntry_shape (baseUrl : String) (vodItem : Json) (r : UrlRes)
    (h : (do
      let slug ← pyGet vodItem "episodeSlug"
      let vid ← pyGet vodItem "episodeId"
      let name ← pyGet vodItem "episodeName"
      pure (⟨baseUrl ++ "/" ++ pyStr slug, FunimationPageIE.ie_key, vid, name⟩ : UrlRes))
      = .ok r) :
    r.ieKey = FunimationPageIE.ie_key ∧ ∃ s, r.url = baseUrl ++ "/" ++ s := by
  obtain ⟨slug, _, h⟩ := bind_ok_inv h
  obtain ⟨vid, _, h⟩ := bind_ok_inv h
  obtain ⟨name, _, h⟩ := bind_ok_inv h
  rw [← pure_ok_inv h]
  exact ⟨rfl, pyStr slug, rfl⟩

/-- C1: the dispatch chain.  (i) Every entry of the playlist
`FunimationShowIE._real_extract` returns is a `url_result` redirect of an
episode-page URL `base_url/slug` to `FunimationPageIE`.  (ii) When the
episode lookup succeeds, `FunimationPageIE._real_extract` returns a
`url_result` redirect to the `FunimationIE` player URL
`https://www.funimation.com/player/<video_id>?<episode>` built from the
first `'id'` under `'videoList'`.  (iii) `traverse_videoList_first_id`
is indeed the *first* such id: with all entries before `x` lacking
`'id'`, it returns `x`'s id. -/
theorem C1_dispatch_chain :
    (∀ baseUrl locale displayId showResp itemsResp pid ptitle entries,
      FunimationShowIE._real_extract baseUrl locale displayId showResp itemsResp
        = .ok (.playlist pid ptitle entries) →
      ∀ e ∈ entries, e.ieKey = FunimationPageIE.ie_key ∧ ∃ s, e.url = baseUrl ++ "/" ++ s)
    ∧ (∀ locale showSlug episode data,
      FunimationPageIE._real_extract locale showSlug episode (.ok data)
        = .ok (.urlResult ⟨"https://www.funimation.com/player/"
            ++ pyStr ((traverse_videoList_first_id data).getD .null) ++ "?" ++ episode,
          FunimationIE.ie_key, .null, .null⟩))
    ∧ (∀ (data : Json) (xs pre post : List Json) (x v : Json),
      data.lookup "videoList" = some (.list xs) →
      xs = pre ++ x :: post →
      (∀ y ∈ pre, y.lookup "id" = none) →
      x.lookup "id" = some v →
      traverse_videoList_first_id data = some v) := by
  refine ⟨?_, ?_, ?_⟩
  · intro baseUrl locale displayId showResp itemsResp pid ptitle entries h e he
    unfold FunimationShowIE._real_extract at h
    obtain ⟨showInfo, _, h⟩ := bind_ok_inv h
    obtain ⟨itemsInfo, _, h⟩ := bind_ok_inv h
    obtain ⟨pid', _, h⟩ := bind_ok_inv h
    obtain ⟨ptitle', _, h⟩ := bind_ok_inv h
    obtain ⟨sortedItems, _, h⟩ := bind_ok_inv h
    obtain ⟨entries', hmap, h⟩ := bind_ok_inv h
    have hinj := pure_ok_inv h
    have hentries : orderedSet entries' = entries := by
      injection hinj with h1 h2 h3
    rw [← hentries] at he
    obtain ⟨vodItem, _, hfe⟩ := mapM_mem _ sortedItems entries' hmap e (orderedSet_mem entries' e he)
    exact showEntry_shape baseUrl vodItem e hfe
  · intro locale showSlug episode data
    rfl
  · intro data xs pre post x v hlook hsplit hpre hx
    unfold traverse_videoList_first_id
    rw [hlook]
    show List.findSome? (fun y => y.lookup "id") (branchValues (Json.list xs)) = some v
    rw [show branchValues (Json.list xs) = xs from rfl, hsplit]
    rw [List.findSome?_append]
    have hprenone : pre.findSome? (fun y => y.lookup "id") = none := by
      rw [List.findSome?_eq_none_iff]
      intro y hy
      exact hpre y hy
    rw [hprenone]
    rw [List.findSome?_cons]
    rw [hx]
    rfl

/-- C1 witness: a concrete show/episode-list pair whose playlist entry is
redirected to `FunimationPageIE`, and a concrete episode lookup whose
result is redirected to the `FunimationIE` player URL of the first
`'id'` under `'videoList'`. -/
theorem C1_witness :
    ((⟨"https://www.funimation.com/shows/x/ep-1", FunimationPageIE.ie_key,
        Json.int 1, Json.str "Ep 1"⟩ : UrlRes).ieKey = FunimationPageIE.ie_key
      ∧ ∃ s, (⟨"https://www.funimation.com/shows/x/ep-1", FunimationPageIE.ie_key,
        Json.int 1, Json.str "Ep 1"⟩ : UrlRes).url = "https://www.funimation.com/shows/x" ++ "/" ++ s)
    ∧ FunimationPageIE._real_extract none "myshow" "ep-1"
        (.ok (.dict [("videoList", .list [.dict [("x", .int 0)], .dict [("id", .int 210051)]])]))
      = .ok (.urlResult ⟨"https://www.funimation.com/player/"
          ++ pyStr ((traverse_videoList_first_id (.dict [("videoList",
            .list [.dict [("x", .int 0)], .dict [("id", .int 210051)]])])).getD .null)
          ++ "?" ++ "ep-1", FunimationIE.ie_key, .null, .null⟩)
    ∧ traverse_videoList_first_id (.dict [("videoList",
        .list [.dict [("x", .int 0)], .dict [("id", .int 210051)]])]) = some (.int 210051) :=
  ⟨(C1_dispatch_chain.1 "https://www.funimation.com/shows/x" none "x"
      (.ok (.dict [("id", .int 5), ("name", .str "X")]))
      (.ok (.dict [("items", .list [.dict [("mostRecentSvod", .dict [("item",
        .dict [("episodeSlug", .str "ep-1"), ("episodeId", .int 1),
          ("episodeName", .str "Ep 1"), ("episodeOrder", .int 1)])])]])]))
      (.int 5) (.str "X")
      [⟨"https://www.funimation.com/shows/x/ep-1", FunimationPageIE.ie_key,
        Json.int 1, Json.str "Ep 1"⟩] rfl)
      ⟨"https://www.funimation.com/shows/x/ep-1", FunimationPageIE.ie_key,
        Json.int 1, Json.str "Ep 1"⟩ (List.mem_singleton.mpr rfl),
   C1_dispatch_chain.2.1 none "myshow" "ep-1"
      (.dict [("videoList", .list [.dict [("x", .int 0)], .dict [("id", .int 210051)]])]),
   C1_dispatch_chain.2.2
      (.dict [("videoList", .list [.dict [("x", .int 0)], .dict [("id", .int 210051)]])])
      [.dict [("x", .int 0)], .dict [("id", .int 210051)]]
      [.dict [("x", .int 0)]] [] (.dict [("id", .int 210051)]) (.int 210051)
      rfl rfl (by
        intro y hy
        rw [List.mem_singleton] at hy
        subst hy
        rfl) rfl⟩

/-- C8: when the user requested languages or versions and no collected
format matched, both `_real_extract`s raise the expected "no formats"
error (spec-modelled `raise_no_formats`) instead of returning an info
dict with an empty formats list. -/
theorem C8_no_formats_error :
    (∀ (inp : FunIEInput) (n : Nat) (episode season showJ : Json) (w : List String)
       (pk slugJ : Json) (st : CollectState),
      strToNat? inp.initialId = some n →
      FunimationIE._get_episode inp.showData (.int n) none inp.episodeSlug.isNone
        = .ok (episode, season, showJ, w) →
      pyTruthy episode = true →
      pyItem episode "episodePk" = .ok pk →
      pyGet episode "slug" = .ok slugJ →
      FunimationIE.collectFormats inp episode (pyStr pk) = .ok st →
      st.formats = [] →
      (inp.reqLangs ≠ [] ∨ inp.reqVers ≠ []) →
      FunimationIE._real_extract inp
        = .error (.extractorError
            "There are no video formats matching the requested languages/versions" true none))
    ∧ (∀ (inp : MetaInput) (showInfo venueId page : Json) (st2 : List Json × Subs)
       (imagesJ : Json) (images thumbs : List Json),
      inp.showInfoResp = .ok showInfo →
      pyGet showInfo "venueId" = .ok venueId →
      FunimationMetaIE.playbackDownload inp.classToken inp.srcTokenCookie
        inp.playAuth inp.playAnon = .ok page →
      FunimationMetaIE.collectPlaybacks inp.m3u8 inp.reqLangs inp.reqVers inp.writeSubtitles
        (if inp.episodeSlug ≠ "" then inp.episodeSlug else pyStr venueId) page = .ok st2 →
      st2.1.mapM (FunimationMetaIE.renameLang showInfo) = .ok [] →
      pyGet showInfo "images" = .ok imagesJ →
      pyIter imagesJ = .ok images →
      images.foldlM FunimationMetaIE.thumbStep [] = .ok thumbs →
      (inp.reqLangs ≠ [] ∨ inp.reqVers ≠ []) →
      FunimationMetaIE._real_extract inp
        = .error (.extractorError
            "There are no video formats matching the requested languages/versions" true none)) := by
  constructor
  · intro inp n episode season showJ w pk slugJ st hnat hep htr hpk hslug hst hempty hreq
    unfold FunimationIE._real_extract
    rw [hnat]
    simp only [Option.getD_some]
    rw [hep, exc_bind_ok]
    rw [if_neg (by simp [htr])]
    rw [hpk, exc_bind_ok, hslug, exc_bind_ok, hst, exc_bind_ok]
    have hcond : (st.formats.isEmpty && (!inp.reqLangs.isEmpty || !inp.reqVers.isEmpty)) = true := by
      rw [hempty]
      rcases hreq with hr | hr <;> simp [hr]
    have hchk : checkNoFormats st.formats inp.reqLangs inp.reqVers
        = .error (.extractorError
            "There are no video formats matching the requested languages/versions" true none) := by
      unfold checkNoFormats
      rw [if_pos hcond]
      rfl
    rw [hchk, exc_bind_error]
  · intro inp showInfo venueId page st2 imagesJ images thumbs
      hshow hvenue hpage hcoll hren himgJ himg hthumbs hreq
    unfold FunimationMetaIE._real_extract
    rw [hshow, exc_bind_ok, hvenue, exc_bind_ok, hpage, exc_bind_ok, hcoll, exc_bind_ok,
      hren, exc_bind_ok, himgJ, exc_bind_ok, himg, exc_bind_ok, hthumbs, exc_bind_ok]
    have hcond : ((List.nil : List Json).isEmpty
        && (!inp.reqLangs.isEmpty || !inp.reqVers.isEmpty)) = true := by
      rcases hreq with hr | hr <;> simp [hr]
    have hchk : checkNoFormats [] inp.reqLangs inp.reqVers
        = .error (.extractorError
            "There are no video formats matching the requested languages/versions" true none) := by
      unfold checkNoFormats
      rw [if_pos hcond]
      rfl
    rw [hchk, exc_bind_error]

/-- C8 witness: a player page whose only experience is filtered out by a
requested language, and a metadata episode with no playback at all, both
with `language=xx` requested — both extractors raise the expected
no-formats error. -/
theorem C8_witness :
    FunimationIE._real_extract
      ⟨"1", none,
        some (Json.dict [("seasons", .list [.dict [("episodes", .list [.dict [
          ("episodePk", .int 5),
          ("languages", .dict [("english", .dict [("alpha", .dict [("uncut",
            .dict [("experienceId", .int 1)])])])])]])]])]),
        ["xx"], [], false, false, fun _ => none, fun _ => .ok (.dict []), fun _ => []⟩
      = .error (.extractorError
          "There are no video formats matching the requested languages/versions" true none)
    ∧ FunimationMetaIE._real_extract
      ⟨"slugy", .ok (Json.dict [("venueId", .int 3), ("images", .list [])]),
        .null, none, .error .typeError, .ok (.dict []), ["xx"], [], false, fun _ => []⟩
      = .error (.extractorError
          "There are no video formats matching the requested languages/versions" true none) :=
  ⟨C8_no_formats_error.1
      ⟨"1", none,
        some (Json.dict [("seasons", .list [.dict [("episodes", .list [.dict [
          ("episodePk", .int 5),
          ("languages", .dict [("english", .dict [("alpha", .dict [("uncut",
            .dict [("experienceId", .int 1)])])])])]])]])]),
        ["xx"], [], false, false, fun _ => none, fun _ => .ok (.dict []), fun _ => []⟩
      1
      (Json.dict [("episodePk", .int 5),
        ("languages", .dict [("english", .dict [("alpha", .dict [("uncut",
          .dict [("experienceId", .int 1)])])])])])
      (Json.dict [("episodes", .list [.dict [("episodePk", .int 5),
        ("languages", .dict [("english", .dict [("alpha", .dict [("uncut",
          .dict [("experienceId", .int 1)])])])])]])])
      (Json.dict [("seasons", .list [.dict [("episodes", .list [.dict [
        ("episodePk", .int 5),
        ("languages", .dict [("english", .dict [("alpha", .dict [("uncut",
          .dict [("experienceId", .int 1)])])])])]])]])])
      [] (.int 5) .null ⟨[], [], [], 0⟩
      rfl rfl rfl rfl rfl rfl rfl (Or.inl (by decide)),
   C8_no_formats_error.2
      ⟨"slugy", .ok (Json.dict [("venueId", .int 3), ("images", .list [])]),
        .null, none, .error .typeError, .ok (.dict []), ["xx"], [], false, fun _ => []⟩
      (Json.dict [("venueId", .int 3), ("images", .list [])]) (.int 3) (.dict [])
      ([], []) (.list []) [] []
      rfl rfl rfl rfl rfl rfl rfl rfl (Or.inl (by decide))⟩

/-- `orderedSet`'s fold preserves `Nodup` of the accumulator. -/
theorem orderedSet_fold_nodup {α : Type} [DecidableEq α] :
    ∀ (xs acc : List α), acc.Nodup →
      (xs.foldl (fun acc x => if acc.contains x then acc else acc ++ [x]) acc).Nodup
  | [], _, h => h
  | x :: xs, acc, h => by
    rw [List.foldl_cons]
    apply orderedSet_fold_nodup xs
    by_cases hc : acc.contains x
    · rw [if_pos hc]
      exact h
    · rw [if_neg hc]
      refine List.Nodup.append h (List.nodup_singleton x) ?_
      intro y hy hy1
      rw [List.mem_singleton] at hy1
      subst hy1
      exact hc (List.elem_iff.mpr hy)

/-- The spec-modelled `_remove_duplicate_formats` leaves no element
twice. -/
theorem remove_duplicate_formats_nodup (xs : List Json) :
    (_remove_duplicate_formats xs).Nodup :=
  orderedSet_fold_nodup xs [] List.nodup_nil

/-- C5: whenever `FunimationIE._real_extract` or
`FunimationMetaIE._real_extract` returns an info dict, its `formats` are
the `_remove_duplicate_formats` of the collected formats, and hence hold
no format twice. -/
theorem C5_formats_deduplicated :
    (∀ (inp : FunIEInput) (d : InfoDict),
      FunimationIE._real_extract inp = .ok (.info d) →
      (∃ collected, d.formats = _remove_duplicate_formats collected) ∧ d.formats.Nodup)
    ∧ (∀ (inp : MetaInput) (d : InfoDict),
      FunimationMetaIE._real_extract inp = .ok (.info d) →
      (∃ collected, d.formats = _remove_duplicate_formats collected) ∧ d.formats.Nodup) := by
  constructor
  · intro inp d h
    unfold FunimationIE._real_extract at h
    obtain ⟨r, _, h⟩ := bind_ok_inv h
    by_cases htr : pyTruthy r.1
    · rw [if_neg (by simpa using htr)] at h
      obtain ⟨pk, _, h⟩ := bind_ok_inv h
      obtain ⟨slugJ, _, h⟩ := bind_ok_inv h
      obtain ⟨st, _, h⟩ := bind_ok_inv h
      obtain ⟨u, _, h⟩ := bind_ok_inv h
      obtain ⟨title, _, h⟩ := bind_ok_inv h
      obtain ⟨summary, _, h⟩ := bind_ok_inv h
      obtain ⟨epTitle, _, h⟩ := bind_ok_inv h
      obtain ⟨epNum, _, h⟩ := bind_ok_inv h
      obtain ⟨seasonTitle, _, h⟩ := bind_ok_inv h
      obtain ⟨seasonNum, _, h⟩ := bind_ok_inv h
      obtain ⟨seasonPk, _, h⟩ := bind_ok_inv h
      obtain ⟨series, _, h⟩ := bind_ok_inv h
      have hd := pure_ok_inv h
      injection hd with hd'
      rw [← hd']
      exact ⟨⟨st.formats, rfl⟩, remove_duplicate_formats_nodup st.formats⟩
    · rw [if_pos (by simpa using htr)] at h
      have hd := pure_ok_inv h
      exact absurd hd (by simp)
  · intro inp d h
    unfold FunimationMetaIE._real_extract at h
    obtain ⟨showInfo, _, h⟩ := bind_ok_inv h
    obtain ⟨venueId, _, h⟩ := bind_ok_inv h
    obtain ⟨page, _, h⟩ := bind_ok_inv h
    obtain ⟨st2, _, h⟩ := bind_ok_inv h
    obtain ⟨currentFormats, _, h⟩ := bind_ok_inv h
    obtain ⟨imagesJ, _, h⟩ := bind_ok_inv h
    obtain ⟨images, _, h⟩ := bind_ok_inv h
    obtain ⟨thumbnails, _, h⟩ := bind_ok_inv h
    obtain ⟨u, _, h⟩ := bind_ok_inv h
    obtain ⟨durJ, _, h⟩ := bind_ok_inv h
    obtain ⟨epNum, _, h⟩ := bind_ok_inv h
    have hd := pure_ok_inv h
    injection hd with hd'
    rw [← hd']
    exact ⟨⟨currentFormats, rfl⟩, remove_duplicate_formats_nodup currentFormats⟩

/-- Like `foldlM_preserve`, with membership of the element available to
the step property. -/
theorem foldlM_preserve_mem {α σ : Type} (P : σ → Prop) (step : σ → α → Except PyErr σ) :
    ∀ (xs : List α), (∀ s a s', a ∈ xs → P s → step s a = .ok s' → P s') →
      ∀ (s s' : σ), P s → xs.foldlM step s = .ok s' → P s'
  | [], _, s, s', h, heq => by
    rw [List.foldlM_nil] at heq
    cases heq
    exact h
  | a :: as, hstep, s, s', h, heq => by
    rw [List.foldlM_cons] at heq
    cases h1 : step s a with
    | error e => rw [h1, exc_bind_error] at heq; cases heq
    | ok s1 =>
      rw [h1, exc_bind_ok] at heq
      exact foldlM_preserve_mem P step as
        (fun s a' s'' ha' => hstep s a' s'' (List.mem_cons_of_mem a ha'))
        s1 s' (hstep s a s1 (List.mem_cons_self a as) h h1) heq

/-- Unfolding one binding of a dict lookup. -/
theorem lookup_cons (a : String × Json) (rest : List (String × Json)) (k : String) :
    (Json.dict (a :: rest)).lookup k
      = if a.1 = k then some a.2 else (Json.dict rest).lookup k := by
  by_cases h : a.1 = k
  · simp [Json.lookup, List.find?_cons, h]
  · simp [Json.lookup, List.find?_cons, h]

/-- Looking up the key just set by `dictSet`. -/
theorem dictSet_lookup_self (k : String) (v : Json) :
    ∀ (kvs : List (String × Json)), (Json.dict (dictSet kvs k v)).lookup k = some v := by
  intro kvs
  induction kvs with
  | nil => simp [dictSet, Json.lookup, List.find?]
  | cons a rest ih =>
    simp only [dictSet]
    by_cases h : a.1 = k
    · rw [if_pos h, lookup_cons]
      simp
    · rw [if_neg h, lookup_cons, if_neg h]
      exact ih

/-- Looking up a different key after `dictSet`. -/
theorem dictSet_lookup_other (k k' : String) (v : Json) (hne : k' ≠ k) :
    ∀ (kvs : List (String × Json)),
      (Json.dict (dictSet kvs k v)).lookup k' = (Json.dict kvs).lookup k' := by
  intro kvs
  induction kvs with
  | nil => simp [dictSet, Json.lookup, List.find?, Ne.symm hne]
  | cons a rest ih =>
    simp only [dictSet]
    by_cases h : a.1 = k
    · rw [if_pos h, lookup_cons, lookup_cons]
      rw [if_neg (fun hc => hne (Eq.symm hc)), if_neg (fun hc => hne (Eq.symm ((Eq.symm h).trans hc)))]
    · rw [if_neg h, lookup_cons, lookup_cons]
      by_cases h2 : a.1 = k'
      · rw [if_pos h2, if_pos h2]
      · rw [if_neg h2, if_neg h2]
        exact ih

/-- The `f.update(...)` pass of the source loop stamps the language and
version tags on every (dict) format. -/
theorem jsonUpdate_formats_tagged (kvs : List (String × Json)) (l v : String) (sp lp : Json) :
    TaggedFmt l v (jsonUpdate (Json.dict kvs)
      [("language", .str l), ("format_note", .str v),
       ("source_preference", sp), ("language_preference", lp)]) := by
  refine ⟨⟨_, rfl⟩, ?_, ?_⟩
  · show (Json.dict (dictSet (dictSet (dictSet (dictSet kvs "language" (.str l))
      "format_note" (.str v)) "source_preference" sp) "language_preference" lp)).lookup "language"
      = some (.str l)
    rw [dictSet_lookup_other "language_preference" "language" lp (by decide)]
    rw [dictSet_lookup_other "source_preference" "language" sp (by decide)]
    rw [dictSet_lookup_other "format_note" "language" (.str v) (by decide)]
    rw [dictSet_lookup_self "language" (.str l)]
  · show (Json.dict (dictSet (dictSet (dictSet (dictSet kvs "language" (.str l))
      "format_note" (.str v)) "source_preference" sp) "language_preference" lp)).lookup "format_note"
      = some (.str v)
    rw [dictSet_lookup_other "language_preference" "format_note" lp (by decide)]
    rw [dictSet_lookup_other "source_preference" "format_note" sp (by decide)]
    rw [dictSet_lookup_self "format_note" (.str v)]

/-- Mapping the update pass over dicts yields tagged formats. -/
theorem map_update_tagged (lang version : String) (sp lp : Json) (gs : List Json)
    (hg : ∀ g ∈ gs, ∃ kvs, g = Json.dict kvs) :
    ∀ f ∈ gs.map (fun f => jsonUpdate f
      [("language", Json.str lang), ("format_note", Json.str version),
       ("source_preference", sp), ("language_preference", lp)]),
      TaggedFmt lang version f := by
  intro f hf
  rw [List.mem_map] at hf
  obtain ⟨g, hgm, rfl⟩ := hf
  obtain ⟨kvs, rfl⟩ := hg g hgm
  exact jsonUpdate_formats_tagged kvs lang version sp lp

/-- One `sourceStep` keeps both `current_formats` and the collected
formats tagged with the experience's language and version. -/
theorem sourceStep_tagged_step (m3u8 : Json → List (List (String × Json)))
    (lang version : String) (sp lp : Json) (experienceId : String)
    (st : List Json × List Json) (source : Json) (st' : List Json × List Json)
    (h : (∀ f ∈ st.1, TaggedFmt lang version f) ∧ (∀ f ∈ st.2, TaggedFmt lang version f))
    (heq : FunimationIE.sourceStep m3u8
      [("language", .str lang), ("format_note", .str version),
       ("source_preference", sp), ("language_preference", lp)] experienceId st source
      = .ok st') :
    (∀ f ∈ st'.1, TaggedFmt lang version f) ∧ (∀ f ∈ st'.2, TaggedFmt lang version f) := by
  unfold FunimationIE.sourceStep at heq
  obtain ⟨srcUrl, _, heq⟩ := bind_ok_inv heq
  obtain ⟨vt, _, heq⟩ := bind_ok_inv heq
  simp only [] at heq
  by_cases hty : pyOr vt (.str (determine_ext srcUrl)) = Json.str "m3u8"
  · rw [if_pos hty] at heq
    cases pure_ok_inv heq
    have hdicts : ∀ g ∈ st.1 ++ (m3u8 srcUrl).map Json.dict, ∃ kvs, g = Json.dict kvs := by
      intro g hgm
      rcases List.mem_append.mp hgm with hgm | hgm
      · exact (h.1 g hgm).1
      · rw [List.mem_map] at hgm
        obtain ⟨kvs, _, rfl⟩ := hgm
        exact ⟨kvs, rfl⟩
    refine ⟨map_update_tagged lang version sp lp _ hdicts, ?_⟩
    intro f hf
    rcases List.mem_append.mp hf with hf | hf
    · exact h.2 f hf
    · exact map_update_tagged lang version sp lp _ hdicts f hf
  · rw [if_neg hty] at heq
    cases pure_ok_inv heq
    have hdicts : ∀ g ∈ st.1 ++
        [Json.dict [("format_id", .str (experienceId ++ "-"
          ++ pyStr (pyOr vt (.str (determine_ext srcUrl))))), ("url", srcUrl)]],
        ∃ kvs, g = Json.dict kvs := by
      intro g hgm
      rcases List.mem_append.mp hgm with hgm | hgm
      · exact (h.1 g hgm).1
      · rw [List.mem_singleton] at hgm
        subst hgm
        exact ⟨_, rfl⟩
    refine ⟨map_update_tagged lang version sp lp _ hdicts, ?_⟩
    intro f hf
    rcases List.mem_append.mp hf with hf | hf
    · exact h.2 f hf
    · exact map_update_tagged lang version sp lp _ hdicts f hf

/-- The tail of one `expStep` iteration past the `continue` filter: the
source-loop fold only contributes formats tagged by the step's own
(unfiltered) experience. -/
theorem expStep_tail (m3u8 : Json → List (List (String × Json)))
    (langPref srcPref : String → Int) (reqLangs reqVers : List String)
    (exps : List (String × String × Json)) (t : String × String × Json)
    (eid : String) (sources : List Json) (subs : Subs) (thumbs : List Json) (dur : Int)
    (baseFormats : List Json) (s' : CollectState)
    (ht : t ∈ exps)
    (hP : ∀ f ∈ baseFormats, FmtFromExperience reqLangs reqVers exps f)
    (hskipLV : langVersionSkip reqLangs reqVers t.1 t.2.1 = false)
    (heq : (do
      let r ← sources.foldlM (FunimationIE.sourceStep m3u8
        [("language", Json.str t.1), ("format_note", Json.str t.2.1),
         ("source_preference", Json.int (srcPref (pyLowerStr t.2.1))),
         ("language_preference", Json.int (langPref (pyLowerStr t.1)))] eid) ([], [])
      pure (⟨baseFormats ++ r.2, subs, thumbs, dur⟩ : CollectState)) = .ok s') :
    ∀ f ∈ s'.formats, FmtFromExperience reqLangs reqVers exps f := by
  obtain ⟨r, hr, heq⟩ := bind_ok_inv heq
  cases pure_ok_inv heq
  have htag := foldlM_preserve
    (fun st => (∀ f ∈ st.1, TaggedFmt t.1 t.2.1 f) ∧ (∀ f ∈ st.2, TaggedFmt t.1 t.2.1 f))
    (FunimationIE.sourceStep m3u8
      [("language", Json.str t.1), ("format_note", Json.str t.2.1),
       ("source_preference", Json.int (srcPref (pyLowerStr t.2.1))),
       ("language_preference", Json.int (langPref (pyLowerStr t.1)))] eid)
    (fun s a s'' hs ha => sourceStep_tagged_step m3u8 t.1 t.2.1
      (Json.int (srcPref (pyLowerStr t.2.1))) (Json.int (langPref (pyLowerStr t.1)))
      eid s a s'' hs ha)
    sources ([], []) r
    ⟨fun f hf => absurd hf (List.not_mem_nil f), fun f hf => absurd hf (List.not_mem_nil f)⟩
    hr
  intro f hf
  rcases List.mem_append.mp hf with hf | hf
  · exact hP f hf
  · obtain ⟨_, hl, hv⟩ := htag.2 f hf
    exact ⟨t.1, t.2.1, t.2.2, by simpa using ht, hskipLV, hl, hv⟩

/-- One `expStep` only contributes formats tagged by its own (unfiltered)
experience. -/
theorem expStep_from_experience (inp : FunIEInput) (episode : Json) (episodeId : String)
    (langPref srcPref : String → Int) (exps : List (String × String × Json))
    (s : CollectState) (t : String × String × Json) (s' : CollectState)
    (ht : t ∈ exps)
    (hP : ∀ f ∈ s.formats, FmtFromExperience inp.reqLangs inp.reqVers exps f)
    (heq : FunimationIE.expStep inp episode episodeId langPref srcPref s t = .ok s') :
    ∀ f ∈ s'.formats, FmtFromExperience inp.reqLangs inp.reqVers exps f := by
  unfold FunimationIE.expStep at heq
  obtain ⟨eidJ, _, heq⟩ := bind_ok_inv heq
  by_cases hskip : experienceSkip inp.compatSeparate inp.initialId inp.reqLangs inp.reqVers
      (pyStr eidJ) t.1 t.2.1
  · rw [if_pos (by simpa using hskip)] at heq
    cases pure_ok_inv heq
    exact hP
  · rw [if_neg (by simpa using hskip)] at heq
    obtain ⟨poster, _, heq⟩ := bind_ok_inv heq
    obtain ⟨durJ, _, heq⟩ := bind_ok_inv heq
    obtain ⟨dur, _, heq⟩ := bind_ok_inv heq
    simp only [] at heq
    have hskipLV : langVersionSkip inp.reqLangs inp.reqVers t.1 t.2.1 = false := by
      rw [Bool.not_eq_true] at hskip
      unfold experienceSkip at hskip
      exact (Bool.or_eq_false_iff.mp hskip).2
    by_cases hws : inp.writeSubtitles = true
    · rw [if_pos hws] at heq
      obtain ⟨subs, _, heq⟩ := bind_ok_inv heq
      obtain ⟨page, _, heq⟩ := bind_ok_inv heq
      obtain ⟨items, _, heq⟩ := bind_ok_inv heq
      by_cases hit : pyTruthy items = true
      · rw [if_pos hit] at heq
        obtain ⟨sources, _, heq⟩ := bind_ok_inv heq
        exact expStep_tail inp.m3u8 langPref srcPref inp.reqLangs inp.reqVers exps t
          (pyStr eidJ) sources subs (s.thumbnails ++ [Json.dict [("url", poster)]]) dur
          s.formats s' ht hP hskipLV heq
      · rw [if_neg hit] at heq
        obtain ⟨sources, _, heq⟩ := bind_ok_inv heq
        exact expStep_tail inp.m3u8 langPref srcPref inp.reqLangs inp.reqVers exps t
          (pyStr eidJ) sources subs (s.thumbnails ++ [Json.dict [("url", poster)]]) dur
          s.formats s' ht hP hskipLV heq
    · rw [if_neg hws] at heq
      obtain ⟨subs, _, heq⟩ := bind_ok_inv heq
      obtain ⟨page, _, heq⟩ := bind_ok_inv heq
      obtain ⟨items, _, heq⟩ := bind_ok_inv heq
      by_cases hit : pyTruthy items = true
      · rw [if_pos hit] at heq
        obtain ⟨sources, _, heq⟩ := bind_ok_inv heq
        exact expStep_tail inp.m3u8 langPref srcPref inp.reqLangs inp.reqVers exps t
          (pyStr eidJ) sources subs (s.thumbnails ++ [Json.dict [("url", poster)]]) dur
          s.formats s' ht hP hskipLV heq
      · rw [if_neg hit] at heq
        obtain ⟨sources, _, heq⟩ := bind_ok_inv heq
        exact expStep_tail inp.m3u8 langPref srcPref inp.reqLangs inp.reqVers exps t
          (pyStr eidJ) sources subs (s.thumbnails ++ [Json.dict [("url", poster)]]) dur
          s.formats s' ht hP hskipLV heq

/-- C4: the language/version filter.  (i) Every format collected by the
experience loop of `FunimationIE._real_extract` comes from an experience
for which `langVersionSkip` is false — i.e. whose lowercased language is
among the requested languages when that list is non-empty and whose
lowercased version is among the requested versions when that list is
non-empty — and carries that experience's language/version tags.
(ii) With no `language`/`version` configuration argument,
`langVersionSkip` excludes nothing.  (iii) The returned (deduplicated)
formats are a subset of the collected ones, so (i) extends to the
returned info dict. -/
theorem C4_language_version_filter :
    (∀ (inp : FunIEInput) (episode : Json) (episodeId : String) (st : CollectState)
       (exps : List (String × String × Json)),
      FunimationIE._get_experiences episode = .ok exps →
      FunimationIE.collectFormats inp episode episodeId = .ok st →
      ∀ f ∈ st.formats, FmtFromExperience inp.reqLangs inp.reqVers exps f)
    ∧ (∀ lang version, langVersionSkip [] [] lang version = false)
    ∧ (∀ (xs : List Json) (f : Json), f ∈ _remove_duplicate_formats xs → f ∈ xs) := by
  refine ⟨?_, ?_, ?_⟩
  · intro inp episode episodeId st exps hexps hcoll
    unfold FunimationIE.collectFormats at hcoll
    obtain ⟨exps', hexps', hcoll⟩ := bind_ok_inv hcoll
    have hee : exps' = exps := Except.ok.inj (hexps'.symm.trans hexps)
    subst hee
    exact foldlM_preserve_mem
      (fun st => ∀ f ∈ st.formats, FmtFromExperience inp.reqLangs inp.reqVers exps' f)
      _ exps'
      (fun s a s' ha hs hstep => expStep_from_experience inp episode episodeId _ _ exps'
        s a s' ha hs hstep)
      ⟨[], [], [], 0⟩ st (fun f hf => absurd hf (List.not_mem_nil f)) hcoll
  · intro lang version
    rfl
  · intro xs f hf
    exact orderedSet_mem xs f hf

/-- C4 witness: with `language=japanese` requested, an episode with an
English and a Japanese experience yields only the Japanese format, and it
is traceable to the unfiltered Japanese experience. -/
theorem C4_witness :
    FmtFromExperience ["japanese"] []
      [("english", "Uncut", Json.dict [("experienceId", Json.int 1)]),
       ("japanese", "Uncut", Json.dict [("experienceId", Json.int 2)])]
      (Json.dict [("format_id", Json.str "2-mp4"), ("url", Json.str "u.mp4"),
        ("language", Json.str "japanese"), ("format_note", Json.str "Uncut"),
        ("source_preference", Json.int 1), ("language_preference", Json.int 0)])
    ∧ langVersionSkip [] [] "english" "Uncut" = false :=
  ⟨(C4_language_version_filter.1
      ⟨"1", none, none, ["japanese"], [], false, false, fun _ => none,
        fun _ => .ok (.dict [("items", .list [.dict [("src", .str "u.mp4")]])]), fun _ => []⟩
      (.dict [("episodePk", .int 5), ("languages", .dict [
        ("english", .dict [("alpha", .dict [("uncut", .dict [("experienceId", .int 1)])])]),
        ("japanese", .dict [("alpha", .dict [("uncut", .dict [("experienceId", .int 2)])])])])])
      "5"
      ⟨[Json.dict [("format_id", Json.str "2-mp4"), ("url", Json.str "u.mp4"),
        ("language", Json.str "japanese"), ("format_note", Json.str "Uncut"),
        ("source_preference", Json.int 1), ("language_preference", Json.int 0)]],
        [], [Json.dict [("url", Json.null)]], 0⟩
      [("english", "Uncut", Json.dict [("experienceId", Json.int 1)]),
       ("japanese", "Uncut", Json.dict [("experienceId", Json.int 2)])]
      rfl rfl)
      (Json.dict [("format_id", Json.str "2-mp4"), ("url", Json.str "u.mp4"),
        ("language", Json.str "japanese"), ("format_note", Json.str "Uncut"),
        ("source_preference", Json.int 1), ("language_preference", Json.int 0)])
      (List.mem_singleton.mpr rfl),
   C4_language_version_filter.2.1 "english" "Uncut"⟩

/-- C5 witness: a concrete `FunimationIE` run returning one format and a
concrete `FunimationMetaIE` run, both with provably duplicate-free
(`_remove_duplicate_formats`-shaped) formats. -/
theorem C5_witness :
    ((∃ collected, [Json.dict
        [("format_id", Json.str "1-mp4"), ("url", Json.str "u.mp4"),
         ("language", Json.str "english"), ("format_note", Json.str "Uncut"),
         ("source_preference", Json.int 1), ("language_preference", Json.int (-1))]]
        = _remove_duplicate_formats collected)
      ∧ ([Json.dict
          [("format_id", Json.str "1-mp4"), ("url", Json.str "u.mp4"),
           ("language", Json.str "english"), ("format_note", Json.str "Uncut"),
           ("source_preference", Json.int 1), ("language_preference", Json.int (-1))]]
          : List Json).Nodup)
    ∧ ((∃ collected, ([] : List Json) = _remove_duplicate_formats collected)
      ∧ (([] : List Json)).Nodup) :=
  ⟨C5_formats_deduplicated.1
      ⟨"1", none,
        some (.dict [("seasons", .list [.dict [("episodes", .list [.dict [
          ("episodePk", .int 5), ("episodeTitle", .str "T"),
          ("languages", .dict [("english", .dict [("alpha", .dict [("uncut",
            .dict [("experienceId", .int 1)])])])])]])]])]),
        [], [], false, false, fun _ => none,
        fun _ => .ok (.dict [("items", .list [.dict [("src", .str "u.mp4")]])]), fun _ => []⟩
      { id := "5", oldArchiveIds := ["funimation 1"], displayId := Json.str "5",
        duration := Json.int 0, title := Json.str "T", description := Json.null,
        episode := Json.str "T", episodeNumber := Json.null, episodeId := "5",
        season := Json.null, seasonNumber := Json.null, seasonId := Json.null,
        series := Json.null,
        formats := [Json.dict
          [("format_id", Json.str "1-mp4"), ("url", Json.str "u.mp4"),
           ("language", Json.str "english"), ("format_note", Json.str "Uncut"),
           ("source_preference", Json.int 1), ("language_preference", Json.int (-1))]],
        thumbnails := [Json.dict [("url", Json.null)]], subtitles := [] }
      rfl,
   C5_formats_deduplicated.2
      ⟨"sl", .ok (.dict [("venueId", .int 3), ("images", .list [])]),
        .null, none, .error .typeError, .ok (.dict []), [], [], false, fun _ => []⟩
      { id := "3", oldArchiveIds := [], displayId := Json.str "sl",
        duration := Json.null, title := Json.null, description := Json.null,
        episode := Json.null, episodeNumber := Json.null, episodeId := "3",
        season := Json.null, seasonNumber := Json.null, seasonId := Json.null,
        series := Json.null, formats := [], thumbnails := [], subtitles := [] }
      rfl⟩
